import Mathlib

/-!
# Countdown timer (`timer/main.go`): the interaction core

A shallow embedding of the polling loop of `main`: the button edge detector and
press handler, the `switch state` block (encoder adjustment in `Waiting`, derived
countdown in `Countdown`), the tones it requests, the tone functions themselves as
sequences of speaker operations, and the text that `DispTime_oled` formats.

Conventions of the embedding.

* Go `int` values (`state`, `newValue`, `oldValue`) and `time.Duration` values
  (`RemainingTime`, `PreviousRemainingTime`, press and countdown durations) are
  integers; the arithmetic the loop performs on them is wrapped to the width of
  the machine type (`wrapInt`, `wrapDuration`).
* The monotonic clock is an integer number of nanoseconds. Each loop iteration
  reads it at up to three places, which are the three clock fields of `Input`.
* Peripheral calls are recorded as a list of `Effect`s in program order.
  `println` diagnostics have no effect on the program state and are left out.
-/

namespace Timer

/-! ## Machine integers and the `time` package -/

/-- Two's-complement wrap of a Go `int`. The build line of the source names the
target `xiao-rp2040`, a 32-bit core, where `int` has 32 bits. -/
def wrapInt (x : Int) : Int :=
  (x + 2147483648) % 4294967296 - 2147483648

/-- Two's-complement wrap of a `time.Duration`, which is an `int64`. -/
def wrapDuration (x : Int) : Int :=
  (x + 9223372036854775808) % 18446744073709551616 - 9223372036854775808

/-- Saturation used by `Time.Sub`: a difference of clock readings outside the
`int64` range yields the largest or smallest `time.Duration`. -/
def satDuration (x : Int) : Int :=
  if x < -9223372036854775808 then -9223372036854775808
  else if x > 9223372036854775807 then 9223372036854775807
  else x

/-- The value of `time.Since(t)` when the monotonic clock reads `now`. -/
def since (now t : Int) : Int :=
  satDuration (now - t)

/-- The constant `time.Millisecond`, in nanoseconds. -/
def Millisecond : Int := 1000000

/-! ## Constants and globals of `main.go` -/

def Waiting : Int := 0

def Countdown : Int := 1

def Reset : Int := 2

def MaxTime : Int := 5940

def MinTime : Int := 0

def shortPressThresholdMs : Int := 100

def longPressThresholdMs : Int := 500

/-- The three end-of-countdown melodies that the expiry branch can start with `go`. -/
inductive Melody where
  | playJISS0013end
  | playThirori
  | playColorTimer
  deriving DecidableEq, Repr

/-- Peripheral calls made by the loop, in program order. `DispTime_oled` carries the
value of the global `RemainingTime` at the call, which is what the function formats. -/
inductive Effect where
  | DispTime_oled (remaining : Int)
  | pipoSound
  | clickSound
  | errorSound
  | go (m : Melody)
  deriving DecidableEq, Repr

/-- The globals `RemainingTime`, `PreviousRemainingTime` and the local variables of
`main` that live across loop iterations. -/
structure State where
  state : Int
  RemainingTime : Int
  PreviousRemainingTime : Int
  newValue : Int
  oldValue : Int
  timerStartTime : Int
  pressStartTime : Int
  isButtonPressed : Bool
  buttonState : Bool
  deriving DecidableEq, Repr

/-- What one loop iteration reads from its environment: the pin level
`rot_btn.Get()` (`true` is released), the encoder position `enc.Position()`, and the
monotonic clock at the button branch (`time.Now()` at a press,
`time.Since(pressStartTime)` at a release), at `timerStartTime = time.Now()`, and at
`time.Since(timerStartTime)` in the `Countdown` case. -/
structure Input where
  buttonState : Bool
  position : Int
  tButton : Int
  tStart : Int
  tTick : Int
  deriving DecidableEq, Repr

/-- Variables as `main` holds them when the `for` loop is first entered. -/
def initState : State :=
  { state := Waiting
    RemainingTime := 300
    PreviousRemainingTime := 300
    newValue := 0
    oldValue := 0
    timerStartTime := 0
    pressStartTime := 0
    isButtonPressed := false
    buttonState := true }

/-- Calls made before the loop: `pipoSound(speaker)` then `DispTime_oled`. -/
def startupEffects : List Effect :=
  [Effect.pipoSound, Effect.DispTime_oled initState.RemainingTime]

/-! ## The button handler -/

/-- Body of `if pressDuration >= longPressThresholdMs*time.Millisecond`. -/
def longPress (s : State) : State × List Effect :=
  let s1 := { s with RemainingTime := s.PreviousRemainingTime }
  (s1, [Effect.DispTime_oled s1.RemainingTime, Effect.pipoSound])

/-- Body of `else if pressDuration >= shortPressThresholdMs*time.Millisecond`;
`now` is the clock read by `timerStartTime = time.Now()`. -/
def shortPress (s : State) (now : Int) : State × List Effect :=
  if s.state = Waiting then
    if s.RemainingTime > 0 then
      ({ s with state := Countdown
                PreviousRemainingTime := s.RemainingTime
                timerStartTime := now }, [Effect.clickSound])
    else
      (s, [Effect.errorSound])
  else
    ({ s with state := Waiting }, [Effect.clickSound])

/-- Body of the final `else`: only a diagnostic line is printed. -/
def noisePress (s : State) : State × List Effect :=
  (s, [])

/-- The branch `else if buttonState && isButtonPressed`, after `pressDuration` has
been measured: clear the flag, then the three-way test on the held duration. -/
def release (s : State) (pressDuration now : Int) : State × List Effect :=
  let s1 := { s with isButtonPressed := false }
  if pressDuration ≥ longPressThresholdMs * Millisecond then
    longPress s1
  else if pressDuration ≥ shortPressThresholdMs * Millisecond then
    shortPress s1 now
  else
    noisePress s1

/-- The button part of a loop iteration: sample the pin, detect the two edges. -/
def button (s : State) (i : Input) : State × List Effect :=
  let s1 := { s with buttonState := i.buttonState }
  if (!s1.buttonState && !s1.isButtonPressed) = true then
    ({ s1 with pressStartTime := i.tButton, isButtonPressed := true }, [])
  else if (s1.buttonState && s1.isButtonPressed) = true then
    release s1 (since i.tButton s1.pressStartTime) i.tStart
  else
    (s1, [])

/-! ## The `switch state` block -/

/-- The hard-coded `choice := 1` of the expiry branch. -/
def choice : Int := 1

/-- The inner `switch choice`: which melody is started with `go`. -/
def endMelody (c : Int) : List Effect :=
  if c = 0 then [Effect.go Melody.playJISS0013end]
  else if c = 1 then [Effect.go Melody.playThirori]
  else if c = 2 then [Effect.go Melody.playColorTimer]
  else []

/-- The `case Waiting` block. -/
def caseWaiting (s : State) (i : Input) : State × List Effect :=
  let s1 := { s with newValue := i.position }
  if s1.newValue ≠ s1.oldValue then
    let s2 :=
      if wrapInt (s1.newValue - s1.oldValue) > 0 then
        let r := wrapDuration (s1.RemainingTime + wrapInt (s1.newValue - s1.oldValue))
        let s3 := { s1 with RemainingTime := r }
        if s3.RemainingTime > MaxTime then { s3 with RemainingTime := MaxTime } else s3
      else
        let r := wrapDuration (s1.RemainingTime - wrapInt (s1.oldValue - s1.newValue))
        let s3 := { s1 with RemainingTime := r }
        if MinTime > s3.RemainingTime then { s3 with RemainingTime := MinTime } else s3
    let s4 := { s2 with oldValue := s2.newValue }
    (s4, [Effect.DispTime_oled s4.RemainingTime])
  else
    (s1, [])

/-- The `case Countdown` block. Go's `/` on integers truncates toward zero. -/
def caseCountdown (s : State) (i : Input) : State × List Effect :=
  let elapsed := (since i.tTick s.timerStartTime).tdiv 1000000000
  let s1 := { s with RemainingTime := wrapDuration (s.PreviousRemainingTime - elapsed) }
  if s1.RemainingTime ≥ 0 then
    (s1, [Effect.DispTime_oled s1.RemainingTime])
  else
    ({ s1 with state := Waiting }, endMelody choice)

/-- The `switch state` statement: no case matches any other value of `state`. -/
def switchState (s : State) (i : Input) : State × List Effect :=
  if s.state = Waiting then caseWaiting s i
  else if s.state = Countdown then caseCountdown s i
  else (s, [])

/-- One iteration of the `for` loop: the button part, then the `switch`. -/
def mainLoopBody (s : State) (i : Input) : State × List Effect :=
  let r1 := button s i
  let r2 := switchState r1.1 i
  (r2.1, r1.2 ++ r2.2)

/-- Successive loop iterations, one per input; the effects are concatenated. -/
def run : State → List Input → State × List Effect
  | s, [] => (s, [])
  | s, i :: rest =>
    let r1 := mainLoopBody s i
    let r2 := run r1.1 rest
    (r2.1, r1.2 ++ r2.2)

/-! ## Observations on runs -/

/-- Clock readings never go back: within an iteration and from one to the next. -/
def clockOK : Int → List Input → Bool
  | _, [] => true
  | t, i :: rest =>
    decide (t ≤ i.tButton) && decide (i.tButton ≤ i.tStart) && decide (i.tStart ≤ i.tTick)
      && clockOK i.tTick rest

/-- Every encoder position of the run has magnitude below `2^30`, so that no
difference of two positions wraps around in a Go `int`. -/
def encoderOK : List Input → Bool
  | [] => true
  | i :: rest =>
    decide (-1073741824 ≤ i.position) && decide (i.position < 1073741824) && encoderOK rest

/-- Whether an effect is the start of an end-of-countdown melody. -/
def isEndMelody : Effect → Bool
  | Effect.go _ => true
  | _ => false

/-- Number of end-of-countdown melodies started in a list of effects. -/
def endMelodies (es : List Effect) : Nat :=
  (es.filter isEndMelody).length

/-- No iteration of the run executes the release branch of the button handler: no
press is handled. -/
def noRelease : State → List Input → Bool
  | _, [] => true
  | s, i :: rest => !(i.buttonState && s.isButtonPressed) && noRelease (mainLoopBody s i).1 rest

/-- Facts that hold of the variables after every iteration of a run whose clock
readings do not go back (`t` is the latest reading) and whose encoder positions stay
below `2^30` in magnitude. -/
def reachInv (t : Int) (s : State) : Prop :=
  (s.state = Waiting ∨ s.state = Countdown) ∧
  1 ≤ s.PreviousRemainingTime ∧ s.PreviousRemainingTime ≤ MaxTime ∧
  -17179869184 ≤ s.RemainingTime ∧ s.RemainingTime ≤ MaxTime ∧
  (s.state = Countdown → MinTime ≤ s.RemainingTime ∧ s.timerStartTime ≤ t) ∧
  -1073741824 ≤ s.oldValue ∧ s.oldValue < 1073741824

/-! ## Concrete states and inputs used in examples -/

/-- An input whose three clock readings coincide. -/
def sample (b : Bool) (pos t : Int) : Input :=
  { buttonState := b, position := pos, tButton := t, tStart := t, tTick := t }

/-- The initial variables with the button held down since clock reading `0`. -/
def heldState : State :=
  { initState with isButtonPressed := true, buttonState := false }

/-- A countdown from 300 s that started at clock reading `0`. -/
def countdownState : State :=
  { initState with state := Countdown }

/-- The encoder is turned down to 2 s, the button is pressed at 1.0 s and released at
1.2 s (the click ends at 1.3 s), the next iteration runs when 3 s have elapsed
since the start, and two idle iterations follow. -/
def expiryInputs : List Input :=
  [ sample true (-298) 0,
    sample false (-298) 1000000000,
    { buttonState := true, position := -298, tButton := 1200000000, tStart := 1200000000,
      tTick := 1300000000 },
    sample true (-298) 4200000000,
    sample true (-298) 4205000000,
    sample true (-298) 4210000000 ]

/-- A countdown from 300 s is started by a 200 ms press; the button is pressed again
at 10 s and released at 11.2 s. -/
def longPressInputs : List Input :=
  [ sample false 0 0,
    sample true 0 200000000,
    sample false 0 10000000000,
    sample true 0 11200000000 ]

/-- A countdown from 300 s is started by a 200 ms press; the encoder moves from 0 to 7
while the countdown runs; a 200 ms press released at 2.2 s cancels the countdown. -/
def turnedInputs : List Input :=
  [ sample false 0 0,
    sample true 0 200000000,
    sample true 7 1000000000,
    sample false 7 2000000000,
    sample true 7 2200000000 ]

/-- The same run with the encoder left at 0 throughout. -/
def steadyInputs : List Input :=
  turnedInputs.map (fun i => { i with position := 0 })

/-- The encoder is turned down to 2 s, a 200 ms press starts the countdown, the next
iteration runs 5 s after the start, then the encoder is turned up by one count. -/
def lateInputs : List Input :=
  [ sample true (-298) 0,
    sample false (-298) 1000000000,
    sample true (-298) 1200000000,
    sample true (-298) 6200000000,
    sample true (-297) 6205000000 ]

/-! ## The tone functions -/

/-- The note constants of package `tone` that the source uses. Their numeric values
belong to the driver library, so they are parameters of the model. -/
structure ToneNotes where
  A3 : Int
  A6 : Int
  A7 : Int
  B5 : Int
  B6 : Int
  D6 : Int
  E6 : Int
  G6 : Int
  deriving DecidableEq, Repr

/-- The package-level variable `mute`, a `tone.Note` of value 0. -/
def mute : Int := 0

/-- What a tone function does, in program order: `speaker.SetNote(n)` and
`time.Sleep(d)` with `d` in nanoseconds. -/
inductive SpeakerOp where
  | SetNote (n : Int)
  | Sleep (d : Int)
  deriving DecidableEq, Repr

/-- A loop `for i := 0; i < n; i++ { body }` whose body does not use `i`. -/
def forLoop : Nat → List SpeakerOp → List SpeakerOp
  | 0, _ => []
  | n + 1, body => body ++ forLoop n body

/-- The acknowledge and start tone. -/
def clickSound (tn : ToneNotes) : List SpeakerOp :=
  [SpeakerOp.SetNote tn.A7, SpeakerOp.Sleep (Millisecond * 100), SpeakerOp.SetNote mute]

/-- The error tone. -/
def errorSound (tn : ToneNotes) : List SpeakerOp :=
  [SpeakerOp.SetNote tn.A3, SpeakerOp.Sleep (Millisecond * 1000), SpeakerOp.SetNote mute]

/-- End melody 0, after JIS S 0013; it ends with the last sleep of its loop. -/
def playJISS0013end (tn : ToneNotes) : List SpeakerOp :=
  let on1 : Int := 100
  let off1 : Int := 100
  let on2 : Int := 500
  let off2 : Int := 500
  forLoop 10
    [SpeakerOp.SetNote tn.A7, SpeakerOp.Sleep (Millisecond * on1),
     SpeakerOp.SetNote mute, SpeakerOp.Sleep (Millisecond * off1),
     SpeakerOp.SetNote tn.A7, SpeakerOp.Sleep (Millisecond * on2),
     SpeakerOp.SetNote mute, SpeakerOp.Sleep (Millisecond * off2)]

/-- End melody 1; the rest of each repetition is written `SetNote(0)` in the source. -/
def playThirori (tn : ToneNotes) : List SpeakerOp :=
  let Repetitions : Nat := 3
  forLoop Repetitions
    [SpeakerOp.SetNote tn.G6, SpeakerOp.Sleep (Millisecond * 240),
     SpeakerOp.SetNote tn.E6, SpeakerOp.Sleep (Millisecond * 240),
     SpeakerOp.SetNote tn.G6, SpeakerOp.Sleep (Millisecond * 240),
     SpeakerOp.SetNote 0, SpeakerOp.Sleep (Millisecond * 240)]
  ++ [SpeakerOp.SetNote mute]

/-- End melody 2. -/
def playColorTimer (tn : ToneNotes) : List SpeakerOp :=
  let Repetitions : Nat := 20
  forLoop Repetitions
    [SpeakerOp.SetNote tn.A6, SpeakerOp.Sleep (Millisecond * 200),
     SpeakerOp.SetNote tn.D6, SpeakerOp.Sleep (Millisecond * 400)]
  ++ [SpeakerOp.SetNote mute]

/-- The startup and reset tone. -/
def pipoSound (tn : ToneNotes) : List SpeakerOp :=
  [SpeakerOp.SetNote tn.B6, SpeakerOp.Sleep (Millisecond * 100),
   SpeakerOp.SetNote mute, SpeakerOp.Sleep (Millisecond * 20),
   SpeakerOp.SetNote tn.B5, SpeakerOp.Sleep (Millisecond * 100),
   SpeakerOp.SetNote mute]

/-- The `(note, sleep)` steps of a tone function: every `SetNote` that is directly
followed by a `Sleep`, with the sleep in nanoseconds. -/
def steps : List SpeakerOp → List (Int × Int)
  | SpeakerOp.SetNote n :: SpeakerOp.Sleep d :: rest => (n, d) :: steps rest
  | _ :: rest => steps rest
  | [] => []

/-- Total time slept by a tone function, in nanoseconds. -/
def totalSleep : List SpeakerOp → Int
  | [] => 0
  | SpeakerOp.Sleep d :: rest => d + totalSleep rest
  | SpeakerOp.SetNote _ :: rest => totalSleep rest

/-- The note the speaker holds after the operations, starting from note `n0`. -/
def lastNote (n0 : Int) : List SpeakerOp → Int
  | [] => n0
  | SpeakerOp.SetNote n :: rest => lastNote n rest
  | SpeakerOp.Sleep _ :: rest => lastNote n0 rest

/-- The last operation on the speaker, if any (`time.Sleep` is not one). -/
def lastSpeakerOp (ops : List SpeakerOp) : Option SpeakerOp :=
  (ops.filter (fun o => match o with
    | SpeakerOp.SetNote _ => true
    | SpeakerOp.Sleep _ => false)).getLast?

/-! ## The display text -/

/-- The verb `%02d` of `fmt.Sprintf` applied to an integer: decimal digits, padded
with zeros to a width of two characters, a minus sign counting towards the width. -/
def fmt02d (n : Int) : String :=
  if 0 ≤ n then
    (if n < 10 then "0" else "") ++ toString n.toNat
  else
    "-" ++ toString (-n).toNat

/-- The string `DispTime` that `DispTime_oled` writes for the value `r` of the global
`RemainingTime`: `fmt.Sprintf("%02d:%02d", RemainingTime/60, RemainingTime%60)`, where
`/` and `%` are Go's truncating division and remainder. -/
def DispTime (r : Int) : String :=
  fmt02d (r.tdiv 60) ++ ":" ++ fmt02d (r.tmod 60)

/-- The values of `RemainingTime` with which `DispTime_oled` is called, in order. -/
def displayed : List Effect → List Int
  | [] => []
  | Effect.DispTime_oled r :: rest => r :: displayed rest
  | _ :: rest => displayed rest

/-! ## Press and release cycles -/

/-- Whether the iteration runs the release branch, in which the held duration is
measured and classified. -/
def classifies (s : State) (i : Input) : Bool :=
  i.buttonState && s.isButtonPressed

/-- Number of iterations of a run that classify a press. -/
def classifications : State → List Input → Nat
  | _, [] => 0
  | s, i :: rest =>
    (if classifies s i = true then 1 else 0) + classifications (mainLoopBody s i).1 rest

/-- Number of pressed-to-released transitions in a stream of pin samples, where
`pressed` tells whether the sample before the stream was a pressed one. -/
def releaseEdges : Bool → List Input → Nat
  | _, [] => 0
  | pressed, i :: rest =>
    (if (pressed && i.buttonState) = true then 1 else 0) + releaseEdges (!i.buttonState) rest

/-! ## The pace of the loop -/

/-- The loop keeps its pace: whenever an iteration runs the `Countdown` case, the
clock it reads there is less than one second after the `switch` of the iteration
before (`t`; for the first iteration, the reading the run starts from). Between two
such readings the source sleeps 5 ms and plays at most `pipoSound` (220 ms). -/
def paceOK : Int → State → List Input → Bool
  | _, _, [] => true
  | t, s, i :: rest =>
    (decide ((button s i).1.state ≠ Countdown) || decide (i.tTick < t + 1000000000))
      && paceOK i.tTick (mainLoopBody s i).1 rest

/-- What a run at the loop's pace preserves beyond `reachInv`: `RemainingTime` is at
least -1, and a running countdown had not yet expired at the latest reading `t`. -/
def paceInv (t : Int) (s : State) : Prop :=
  -1 ≤ s.RemainingTime ∧
  (s.state = Countdown →
    t - s.timerStartTime < (s.PreviousRemainingTime + 1) * 1000000000)

/-- The encoder is read at `-2^31` in the first iteration; then a 200 ms press starts
a countdown. -/
def wrapInputs : List Input :=
  [ sample true (-2147483648) 0,
    sample false (-2147483648) 1000000000,
    sample true (-2147483648) 1200000000 ]

/-- The encoder is turned down to 2 s and a 200 ms press starts the countdown at
1.2 s; the loop then ticks every 0.7 s until the countdown has expired at 4.7 s, and
two more iterations follow, the first with the encoder unmoved, the second with the
encoder one count up. -/
def pacedInputs : List Input :=
  [ sample true (-298) 0,
    sample false (-298) 1000000000,
    sample true (-298) 1200000000,
    sample true (-298) 1900000000,
    sample true (-298) 2600000000,
    sample true (-298) 3300000000,
    sample true (-298) 4000000000,
    sample true (-298) 4700000000,
    sample true (-298) 4705000000,
    sample true (-297) 4710000000 ]

/-! ## Basic facts about the machine arithmetic -/

theorem wrapInt_eq (x : Int) (h1 : -2147483648 ≤ x) (h2 : x < 2147483648) : wrapInt x = x := by
  unfold wrapInt; omega

theorem wrapDuration_eq (x : Int) (h1 : -9223372036854775808 ≤ x)
    (h2 : x < 9223372036854775808) : wrapDuration x = x := by
  unfold wrapDuration; omega

theorem since_nonneg (now t : Int) (h : t ≤ now) : 0 ≤ since now t := by
  unfold since satDuration; split_ifs <;> omega

theorem since_le (now t : Int) : since now t ≤ 9223372036854775807 := by
  unfold since satDuration; split_ifs <;> omega

theorem since_ge (now t : Int) : -9223372036854775808 ≤ since now t := by
  unfold since satDuration; split_ifs <;> omega

theorem tdiv_nonneg_eq (a : Int) (h : 0 ≤ a) : a.tdiv 1000000000 = a / 1000000000 :=
  Int.tdiv_eq_ediv h (by decide)

/-! ## The press handler, branch by branch -/

theorem longPress_ne_shortPress (s : State) (now : Int) : longPress s ≠ shortPress s now := by
  intro h
  have := congrArg (fun r => r.2.length) h
  unfold longPress shortPress at this
  split_ifs at this <;> simp at this

theorem longPress_ne_noisePress (s : State) : longPress s ≠ noisePress s := by
  intro h
  have := congrArg (fun r => r.2.length) h
  simp [longPress, noisePress] at this

theorem shortPress_ne_noisePress (s : State) (now : Int) : shortPress s now ≠ noisePress s := by
  intro h
  have := congrArg (fun r => r.2.length) h
  unfold shortPress noisePress at this
  split_ifs at this <;> simp at this

theorem button_release (s : State) (i : Input) (hp : s.isButtonPressed = true)
    (hb : i.buttonState = true) :
    button s i =
      release { s with buttonState := true } (since i.tButton s.pressStartTime) i.tStart := by
  simp [button, hp, hb]

theorem release_long (s : State) (h now : Int) (hh : 500000000 ≤ h) :
    release s h now = longPress { s with isButtonPressed := false } := by
  unfold release
  simp only [longPressThresholdMs, Millisecond]
  rw [if_pos (by omega)]

theorem release_short (s : State) (h now : Int) (h1 : 100000000 ≤ h) (h2 : h < 500000000) :
    release s h now = shortPress { s with isButtonPressed := false } now := by
  unfold release
  simp only [longPressThresholdMs, shortPressThresholdMs, Millisecond]
  rw [if_neg (by omega), if_pos (by omega)]

theorem release_noise (s : State) (h now : Int) (h1 : h < 100000000) :
    release s h now = noisePress { s with isButtonPressed := false } := by
  unfold release
  simp only [longPressThresholdMs, shortPressThresholdMs, Millisecond]
  rw [if_neg (by omega), if_neg (by omega)]

theorem button_long (s : State) (i : Input)
    (hp : s.isButtonPressed = true) (hb : i.buttonState = true)
    (hl : 500000000 ≤ since i.tButton s.pressStartTime) :
    button s i =
      ({ s with buttonState := true, isButtonPressed := false,
                RemainingTime := s.PreviousRemainingTime },
        [Effect.DispTime_oled s.PreviousRemainingTime, Effect.pipoSound]) := by
  rw [button_release s i hp hb, release_long _ _ _ hl]
  rfl

theorem button_idle (s : State) (i : Input)
    (hp : s.isButtonPressed = false) (hb : i.buttonState = true) :
    button s i = ({ s with buttonState := true }, []) := by
  simp [button, hp, hb]

theorem button_noRelease (s : State) (i : Input)
    (h : (i.buttonState && s.isButtonPressed) = false) :
    (button s i).1.state = s.state ∧ (button s i).2 = [] := by
  unfold button
  cases hb : i.buttonState <;> cases hp : s.isButtonPressed <;> simp_all

/-! ## The `switch`, case by case -/

theorem switchState_countdown (s : State) (i : Input) (h : s.state = Countdown) :
    switchState s i = caseCountdown s i := by
  unfold switchState
  rw [if_neg (by rw [h]; decide), if_pos h]

theorem switchState_waiting (s : State) (i : Input) (h : s.state = Waiting) :
    switchState s i = caseWaiting s i := by
  unfold switchState
  rw [if_pos h]

theorem caseWaiting_state (s : State) (i : Input) : (caseWaiting s i).1.state = s.state := by
  unfold caseWaiting
  simp only
  split_ifs <;> rfl

theorem caseWaiting_endMelodies (s : State) (i : Input) :
    endMelodies (caseWaiting s i).2 = 0 := by
  unfold caseWaiting
  simp only
  split_ifs <;> rfl

theorem caseCountdown_remaining (s : State) (i : Input) :
    (caseCountdown s i).1.RemainingTime
      = wrapDuration (s.PreviousRemainingTime
          - (since i.tTick s.timerStartTime).tdiv 1000000000) := by
  unfold caseCountdown
  simp only
  split_ifs <;> rfl

theorem caseCountdown_expiry (s : State) (i : Input)
    (hneg : (caseCountdown s i).1.RemainingTime < 0) :
    (caseCountdown s i).1.state = Waiting ∧
    (caseCountdown s i).2 = [Effect.go Melody.playThirori] := by
  unfold caseCountdown at hneg ⊢
  simp only at hneg ⊢
  split_ifs at hneg ⊢ with h
  · simp only at hneg; omega
  · exact ⟨rfl, rfl⟩

theorem tdiv_since_bounds (now t : Int) :
    -9223372036 ≤ (since now t).tdiv 1000000000
      ∧ (since now t).tdiv 1000000000 ≤ 9223372036 := by
  have h1 := since_le now t
  have h2 := since_ge now t
  generalize since now t = a at h1 h2
  rcases Int.le_total 0 a with h | h
  · rw [tdiv_nonneg_eq a h]; omega
  · have e : a.tdiv 1000000000 = -((-a) / 1000000000) := by
      have := Int.neg_tdiv a 1000000000
      have h3 := tdiv_nonneg_eq (-a) (by omega)
      omega
    rw [e]; omega

theorem endMelodies_append (a b : List Effect) :
    endMelodies (a ++ b) = endMelodies a + endMelodies b := by
  simp [endMelodies]

/-! ## What every run preserves -/

theorem reachInv_initState (t : Int) : reachInv t initState := by
  simp [reachInv, initState, Waiting, Countdown, MaxTime, MinTime]

theorem button_reachInv (t : Int) (s : State) (i : Input) (hinv : reachInv t s)
    (h1 : t ≤ i.tButton) (h2 : i.tButton ≤ i.tStart) :
    reachInv i.tStart (button s i).1 ∧
    (MinTime ≤ s.RemainingTime → MinTime ≤ (button s i).1.RemainingTime) ∧
    endMelodies (button s i).2 = 0 := by
  obtain ⟨hs, hp1, hp2, hr1, hr2, hc, ho1, ho2⟩ := hinv
  unfold button release longPress shortPress noisePress
  simp only [reachInv, MaxTime, MinTime, Waiting, Countdown, longPressThresholdMs,
    shortPressThresholdMs, Millisecond] at *
  split_ifs <;> simp_all [endMelodies, isEndMelody] <;> omega

theorem caseWaiting_reachInv (t u : Int) (s : State) (i : Input) (hinv : reachInv t s)
    (hw : s.state = Waiting)
    (hp1 : -1073741824 ≤ i.position) (hp2 : i.position < 1073741824) :
    reachInv u (caseWaiting s i).1 ∧
    (MinTime ≤ s.RemainingTime → MinTime ≤ (caseWaiting s i).1.RemainingTime) ∧
    endMelodies (caseWaiting s i).2 = 0 := by
  obtain ⟨hs, hq1, hq2, hr1, hr2, hc, ho1, ho2⟩ := hinv
  have e1 : wrapInt (i.position - s.oldValue) = i.position - s.oldValue :=
    wrapInt_eq _ (by omega) (by omega)
  have e2 : wrapInt (s.oldValue - i.position) = s.oldValue - i.position :=
    wrapInt_eq _ (by omega) (by omega)
  simp only [MaxTime] at hr2
  have e3 : wrapDuration (s.RemainingTime + (i.position - s.oldValue))
      = s.RemainingTime + (i.position - s.oldValue) :=
    wrapDuration_eq _ (by omega) (by omega)
  have e4 : wrapDuration (s.RemainingTime - (s.oldValue - i.position))
      = s.RemainingTime - (s.oldValue - i.position) :=
    wrapDuration_eq _ (by omega) (by omega)
  unfold caseWaiting
  simp only [e1, e2, e3, e4]
  simp only [reachInv, MaxTime, MinTime, Waiting, Countdown] at *
  split_ifs <;> simp_all [endMelodies, isEndMelody] <;> omega

theorem caseCountdown_reachInv (t : Int) (s : State) (i : Input) (hinv : reachInv t s)
    (hcd : s.state = Countdown) (h1 : t ≤ i.tTick) :
    reachInv i.tTick (caseCountdown s i).1 ∧
    (endMelodies (caseCountdown s i).2 = 0 →
      MinTime ≤ (caseCountdown s i).1.RemainingTime) := by
  obtain ⟨hs, hq1, hq2, hr1, hr2, hc, ho1, ho2⟩ := hinv
  obtain ⟨hc1, hc2⟩ := hc hcd
  have hn := since_nonneg i.tTick s.timerStartTime (by omega)
  have hle := since_le i.tTick s.timerStartTime
  have e1 := tdiv_nonneg_eq _ hn
  simp only [MaxTime] at hq2
  have e2 : wrapDuration (s.PreviousRemainingTime - since i.tTick s.timerStartTime / 1000000000)
      = s.PreviousRemainingTime - since i.tTick s.timerStartTime / 1000000000 :=
    wrapDuration_eq _ (by omega) (by omega)
  unfold caseCountdown
  simp only [e1, e2]
  generalize since i.tTick s.timerStartTime = a at *
  simp only [reachInv, MaxTime, MinTime, Waiting, Countdown, choice, endMelody] at *
  split_ifs <;> simp_all [endMelodies, isEndMelody] <;> omega

theorem switchState_reachInv (t : Int) (s : State) (i : Input) (hinv : reachInv t s)
    (h1 : t ≤ i.tTick)
    (hp1 : -1073741824 ≤ i.position) (hp2 : i.position < 1073741824) :
    reachInv i.tTick (switchState s i).1 ∧
    (MinTime ≤ s.RemainingTime → endMelodies (switchState s i).2 = 0 →
      MinTime ≤ (switchState s i).1.RemainingTime) := by
  rcases hinv.1 with hw | hcd
  · rw [switchState_waiting s i hw]
    obtain ⟨a, b, _⟩ := caseWaiting_reachInv t i.tTick s i hinv hw hp1 hp2
    exact ⟨a, fun h _ => b h⟩
  · rw [switchState_countdown s i hcd]
    obtain ⟨a, b⟩ := caseCountdown_reachInv t s i hinv hcd h1
    exact ⟨a, fun _ h => b h⟩

theorem mainLoopBody_reachInv (t : Int) (s : State) (i : Input) (hinv : reachInv t s)
    (h1 : t ≤ i.tButton) (h2 : i.tButton ≤ i.tStart) (h3 : i.tStart ≤ i.tTick)
    (hp1 : -1073741824 ≤ i.position) (hp2 : i.position < 1073741824) :
    reachInv i.tTick (mainLoopBody s i).1 ∧
    (MinTime ≤ s.RemainingTime → endMelodies (mainLoopBody s i).2 = 0 →
      MinTime ≤ (mainLoopBody s i).1.RemainingTime) := by
  obtain ⟨b1, b2, b3⟩ := button_reachInv t s i hinv h1 h2
  obtain ⟨c1, c2⟩ := switchState_reachInv i.tStart (button s i).1 i b1 h3 hp1 hp2
  refine ⟨c1, fun hm he => ?_⟩
  simp only [mainLoopBody] at he ⊢
  rw [endMelodies_append, b3, Nat.zero_add] at he
  exact c2 (b2 hm) he

theorem run_reachInv (inputs : List Input) :
    ∀ (t : Int) (s : State), reachInv t s → clockOK t inputs = true →
      encoderOK inputs = true →
      (∃ u, reachInv u (run s inputs).1) ∧
      (MinTime ≤ s.RemainingTime → endMelodies (run s inputs).2 = 0 →
        MinTime ≤ (run s inputs).1.RemainingTime) := by
  induction inputs with
  | nil => intro t s hinv _ _; exact ⟨⟨t, hinv⟩, fun h _ => h⟩
  | cons i rest ih =>
    intro t s hinv hclk henc
    simp only [clockOK, Bool.and_eq_true, decide_eq_true_eq] at hclk
    simp only [encoderOK, Bool.and_eq_true, decide_eq_true_eq] at henc
    obtain ⟨⟨⟨h1, h2⟩, h3⟩, h4⟩ := hclk
    obtain ⟨⟨hp1, hp2⟩, h5⟩ := henc
    obtain ⟨m1, m2⟩ := mainLoopBody_reachInv t s i hinv h1 h2 h3 hp1 hp2
    obtain ⟨r1, r2⟩ := ih i.tTick (mainLoopBody s i).1 m1 h4 h5
    refine ⟨r1, fun hm he => ?_⟩
    simp only [run] at he ⊢
    rw [endMelodies_append] at he
    exact r2 (m2 hm (by omega)) (by omega)

theorem run_waiting_noRelease (inputs : List Input) :
    ∀ s : State, s.state = Waiting → noRelease s inputs = true →
      (run s inputs).1.state = Waiting ∧ endMelodies (run s inputs).2 = 0 := by
  induction inputs with
  | nil => intro s hw _; exact ⟨hw, rfl⟩
  | cons i rest ih =>
    intro s hw hn
    simp only [noRelease, Bool.and_eq_true, Bool.not_eq_true'] at hn
    obtain ⟨hb1, hb2⟩ := button_noRelease s i hn.1
    have hsw : (mainLoopBody s i).1.state = Waiting := by
      simp only [mainLoopBody]
      rw [switchState_waiting _ _ (by rw [hb1]; exact hw), caseWaiting_state, hb1]; exact hw
    have hem : endMelodies (mainLoopBody s i).2 = 0 := by
      simp only [mainLoopBody]
      rw [switchState_waiting _ _ (by rw [hb1]; exact hw), hb2, List.nil_append,
        caseWaiting_endMelodies]
    obtain ⟨h1, h2⟩ := ih (mainLoopBody s i).1 hsw hn.2
    refine ⟨h1, ?_⟩
    simp only [run]
    rw [endMelodies_append, hem, h2]

theorem caseWaiting_remaining (s : State) (i : Input)
    (hd1 : -2147483648 < i.position - s.oldValue) (hd2 : i.position - s.oldValue < 2147483648)
    (hr1 : -4611686018427387904 ≤ s.RemainingTime)
    (hr2 : s.RemainingTime ≤ 4611686018427387904) :
    (0 < i.position - s.oldValue →
      (caseWaiting s i).1.RemainingTime
        = min (s.RemainingTime + (i.position - s.oldValue)) MaxTime) ∧
    (i.position - s.oldValue < 0 →
      (caseWaiting s i).1.RemainingTime
        = max (s.RemainingTime + (i.position - s.oldValue)) MinTime) ∧
    (i.position - s.oldValue = 0 →
      (caseWaiting s i).1.RemainingTime = s.RemainingTime ∧ (caseWaiting s i).2 = []) ∧
    (i.position - s.oldValue ≠ 0 →
      (caseWaiting s i).2 = [Effect.DispTime_oled (caseWaiting s i).1.RemainingTime]) ∧
    (caseWaiting s i).1.oldValue = i.position := by
  have e1 : wrapInt (i.position - s.oldValue) = i.position - s.oldValue :=
    wrapInt_eq _ (by omega) (by omega)
  have e2 : wrapInt (s.oldValue - i.position) = s.oldValue - i.position :=
    wrapInt_eq _ (by omega) (by omega)
  have e3 : wrapDuration (s.RemainingTime + (i.position - s.oldValue))
      = s.RemainingTime + (i.position - s.oldValue) :=
    wrapDuration_eq _ (by omega) (by omega)
  have e4 : wrapDuration (s.RemainingTime - (s.oldValue - i.position))
      = s.RemainingTime - (s.oldValue - i.position) :=
    wrapDuration_eq _ (by omega) (by omega)
  unfold caseWaiting
  simp only [e1, e2, e3, e4, MaxTime, MinTime]
  refine ⟨?_, ?_, ?_, ?_, ?_⟩
  · intro h
    split_ifs <;> simp_all
    omega
  · intro h
    split_ifs <;> simp_all <;> omega
  · intro h
    have hpo : i.position = s.oldValue := by omega
    simp [hpo]
  · intro h
    split_ifs <;> simp_all
  · split_ifs <;> simp_all

/-- An encoder difference of `-2^31` does not fit the negation `oldValue - newValue`:
read at position `-2^31` from `oldValue = 0`, the branch for a non-positive delta
subtracts `-2^31` and leaves `RemainingTime` far above `MaxTime`. -/
theorem caseWaiting_wraps_at_min_int :
    (caseWaiting initState (sample true (-2147483648) 0)).1.RemainingTime = 2147483948 := by
  decide

theorem button_position (s : State) (i : Input) (p : Int) :
    button s { i with position := p } = button s i := rfl

theorem button_oldValue (s : State) (i : Input) : (button s i).1.oldValue = s.oldValue := by
  unfold button release longPress shortPress noisePress
  simp only
  split_ifs <;> rfl

theorem caseCountdown_position (s : State) (i : Input) (p : Int) :
    caseCountdown s { i with position := p } = caseCountdown s i := rfl

theorem caseCountdown_oldValue (s : State) (i : Input) :
    (caseCountdown s i).1.oldValue = s.oldValue := by
  unfold caseCountdown
  simp only
  split_ifs <;> rfl

theorem button_cancel (s : State) (i : Input)
    (hp : s.isButtonPressed = true) (hb : i.buttonState = true)
    (h1 : 100000000 ≤ since i.tButton s.pressStartTime)
    (h2 : since i.tButton s.pressStartTime < 500000000)
    (hc : s.state = Countdown) :
    button s i =
      ({ s with buttonState := true, isButtonPressed := false, state := Waiting },
        [Effect.clickSound]) := by
  rw [button_release s i hp hb, release_short _ _ _ h1 h2]
  simp [shortPress, hc, Countdown, Waiting]

/-! ## The claims -/

/-- Counterexample to C1 as stated. With non-decreasing clock readings and small
encoder positions, the run `expiryInputs` (set 2 s, start, next tick 3 s after the
start) ends its fourth iteration with `RemainingTime = -1`, below `MinTime = 0`: the
`Countdown` case assigns `PreviousRemainingTime - elapsed` and the expiry branch leaves
the negative value in place. -/
theorem remaining_time_bounds_counterexample :
    clockOK 0 (expiryInputs.take 4) = true ∧
    encoderOK (expiryInputs.take 4) = true ∧
    (run initState (expiryInputs.take 3)).1.state = Countdown ∧
    (run initState (expiryInputs.take 4)).1.RemainingTime = -1 ∧
    ¬ (MinTime ≤ (run initState (expiryInputs.take 4)).1.RemainingTime) := by
  decide

/-- Claim C1, amended. In every state reached from the initial state by loop
iterations whose clock readings never go back and whose encoder positions have
magnitude below `2^30`: `RemainingTime ≤ MaxTime`; `MinTime ≤ RemainingTime` when the
iteration ends in mode `Countdown`; and `MinTime ≤ RemainingTime` as long as no end
melody has been started, that is until the first expiry. -/
theorem remaining_time_bounds (t0 : Int) (inputs : List Input)
    (hclk : clockOK t0 inputs = true) (henc : encoderOK inputs = true) :
    (run initState inputs).1.RemainingTime ≤ MaxTime ∧
    ((run initState inputs).1.state = Countdown →
      MinTime ≤ (run initState inputs).1.RemainingTime) ∧
    (endMelodies (run initState inputs).2 = 0 →
      MinTime ≤ (run initState inputs).1.RemainingTime) := by
  obtain ⟨⟨u, hu⟩, hmin⟩ :=
    run_reachInv inputs t0 initState (reachInv_initState t0) hclk henc
  obtain ⟨_, _, _, _, hr2, hc, _, _⟩ := hu
  exact ⟨hr2, fun h => (hc h).1, fun h => hmin (by decide) h⟩

/-- Witness for C1: the first three iterations of `expiryInputs`, which end in mode
`Countdown` with 2 s remaining. -/
theorem remaining_time_bounds_witness :
    clockOK 0 (expiryInputs.take 3) = true ∧ encoderOK (expiryInputs.take 3) = true ∧
    (run initState (expiryInputs.take 3)).1.RemainingTime ≤ MaxTime ∧
    ((run initState (expiryInputs.take 3)).1.state = Countdown →
      MinTime ≤ (run initState (expiryInputs.take 3)).1.RemainingTime) ∧
    (endMelodies (run initState (expiryInputs.take 3)).2 = 0 →
      MinTime ≤ (run initState (expiryInputs.take 3)).1.RemainingTime) :=
  ⟨by decide, by decide,
    remaining_time_bounds 0 (expiryInputs.take 3) (by decide) (by decide)⟩

/-- Claim C2. At a pressed-to-released transition with held duration
`h = time.Since(pressStartTime)` in nanoseconds, the button part of the iteration runs
the long-press body exactly when `h ≥ 500 ms`, the short-press body exactly when
`100 ms ≤ h < 500 ms`, and the noise body exactly when `h < 100 ms`; the three bodies
have pairwise different outcomes, so exactly one of them is taken. -/
theorem button_classification (s : State) (i : Input)
    (hp : s.isButtonPressed = true) (hb : i.buttonState = true) :
    (button s i = longPress { s with buttonState := true, isButtonPressed := false }
        ↔ 500000000 ≤ since i.tButton s.pressStartTime) ∧
    (button s i = shortPress { s with buttonState := true, isButtonPressed := false } i.tStart
        ↔ 100000000 ≤ since i.tButton s.pressStartTime
          ∧ since i.tButton s.pressStartTime < 500000000) ∧
    (button s i = noisePress { s with buttonState := true, isButtonPressed := false }
        ↔ since i.tButton s.pressStartTime < 100000000) ∧
    (∀ (q : State) (now : Int), longPress q ≠ shortPress q now ∧ longPress q ≠ noisePress q
        ∧ shortPress q now ≠ noisePress q) := by
  refine ⟨?_, ?_, ?_, fun q now =>
    ⟨longPress_ne_shortPress q now, longPress_ne_noisePress q, shortPress_ne_noisePress q now⟩⟩
  all_goals rw [button_release s i hp hb]
  all_goals generalize since i.tButton s.pressStartTime = h
  · by_cases c1 : 500000000 ≤ h
    · rw [release_long _ h _ c1]
      exact ⟨fun _ => c1, fun _ => rfl⟩
    · refine ⟨fun e => ?_, fun hh => absurd hh c1⟩
      by_cases c2 : 100000000 ≤ h
      · rw [release_short _ h _ c2 (by omega)] at e
        exact absurd e.symm (longPress_ne_shortPress _ _)
      · rw [release_noise _ h _ (by omega)] at e
        exact absurd e.symm (longPress_ne_noisePress _)
  · by_cases c1 : 500000000 ≤ h
    · rw [release_long _ h _ c1]
      exact ⟨fun e => absurd e (longPress_ne_shortPress _ _), fun hh => by omega⟩
    · by_cases c2 : 100000000 ≤ h
      · rw [release_short _ h _ c2 (by omega)]
        exact ⟨fun _ => ⟨c2, by omega⟩, fun _ => rfl⟩
      · rw [release_noise _ h _ (by omega)]
        exact ⟨fun e => absurd e.symm (shortPress_ne_noisePress _ _), fun hh => by omega⟩
  · by_cases c1 : 500000000 ≤ h
    · rw [release_long _ h _ c1]
      exact ⟨fun e => absurd e (longPress_ne_noisePress _), fun hh => by omega⟩
    · by_cases c2 : 100000000 ≤ h
      · rw [release_short _ h _ c2 (by omega)]
        exact ⟨fun e => absurd e (shortPress_ne_noisePress _ _), fun hh => by omega⟩
      · rw [release_noise _ h _ (by omega)]
        exact ⟨fun _ => by omega, fun _ => rfl⟩

/-- Witness for C2: the held button of `heldState` released at 600 ms. -/
theorem button_classification_witness :
    heldState.isButtonPressed = true ∧ (sample true 0 600000000).buttonState = true ∧
    (button heldState (sample true 0 600000000)
        = longPress { heldState with buttonState := true, isButtonPressed := false }
      ↔ 500000000 ≤ since (sample true 0 600000000).tButton heldState.pressStartTime) :=
  ⟨by decide, by decide,
    (button_classification heldState (sample true 0 600000000) (by decide) (by decide)).1⟩

/-- Claim C3. In mode `Waiting` with `RemainingTime = r > 0`, the handling of a short
press (held `100 ms ≤ h < 500 ms`) sets `state = Countdown`, `PreviousRemainingTime = r`
and `timerStartTime` to the clock read at that moment, leaves `RemainingTime = r`, and
its only effect is one `clickSound`; `PreviousRemainingTime` and `timerStartTime` keep
these values to the end of the loop iteration. -/
theorem short_press_starts_countdown (s : State) (i : Input) (r : Int)
    (hp : s.isButtonPressed = true) (hb : i.buttonState = true)
    (h1 : 100000000 ≤ since i.tButton s.pressStartTime)
    (h2 : since i.tButton s.pressStartTime < 500000000)
    (hw : s.state = Waiting) (hr : s.RemainingTime = r) (hpos : 0 < r) :
    button s i =
      ({ s with buttonState := true, isButtonPressed := false, state := Countdown,
                PreviousRemainingTime := r, timerStartTime := i.tStart },
        [Effect.clickSound]) ∧
    (button s i).1.state = Countdown ∧
    (button s i).1.RemainingTime = r ∧
    (mainLoopBody s i).1.PreviousRemainingTime = r ∧
    (mainLoopBody s i).1.timerStartTime = i.tStart := by
  have hbtn : button s i =
      ({ s with buttonState := true, isButtonPressed := false, state := Countdown,
                PreviousRemainingTime := r, timerStartTime := i.tStart },
        [Effect.clickSound]) := by
    rw [button_release s i hp hb, release_short _ _ _ h1 h2]
    subst hr
    simp [shortPress, hw, hpos]
  refine ⟨hbtn, by rw [hbtn], by rw [hbtn]; exact hr, ?_, ?_⟩
  · simp only [mainLoopBody, hbtn, switchState, Countdown, Waiting]
    simp [caseCountdown]
    split_ifs <;> rfl
  · simp only [mainLoopBody, hbtn, switchState, Countdown, Waiting]
    simp [caseCountdown]
    split_ifs <;> rfl

/-- Witness for C3: `Waiting` with 120 s set, the button released after 200 ms. -/
theorem short_press_starts_countdown_witness :
    (button { heldState with RemainingTime := 120 } (sample true 0 200000000)).1.state
        = Countdown ∧
    (button { heldState with RemainingTime := 120 } (sample true 0 200000000)).1.PreviousRemainingTime
        = 120 ∧
    (button { heldState with RemainingTime := 120 } (sample true 0 200000000)).2
        = [Effect.clickSound] :=
  have h := short_press_starts_countdown { heldState with RemainingTime := 120 }
    (sample true 0 200000000) 120 (by decide) (by decide) (by decide) (by decide) (by decide)
    rfl (by decide)
  ⟨h.2.1, by rw [h.1], by rw [h.1]⟩

/-- Claim C4. In mode `Waiting` with `RemainingTime = 0`, the handling of a short press
has `errorSound` as its only effect and leaves `state = Waiting`, `RemainingTime`,
`PreviousRemainingTime` and `timerStartTime` unchanged (only the button flags change). -/
theorem short_press_zero_rejected (s : State) (i : Input)
    (hp : s.isButtonPressed = true) (hb : i.buttonState = true)
    (h1 : 100000000 ≤ since i.tButton s.pressStartTime)
    (h2 : since i.tButton s.pressStartTime < 500000000)
    (hw : s.state = Waiting) (hr : s.RemainingTime = 0) :
    button s i
      = ({ s with buttonState := true, isButtonPressed := false }, [Effect.errorSound]) ∧
    (button s i).2 = [Effect.errorSound] ∧
    (button s i).1.state = Waiting ∧
    (button s i).1.RemainingTime = s.RemainingTime ∧
    (button s i).1.PreviousRemainingTime = s.PreviousRemainingTime ∧
    (button s i).1.timerStartTime = s.timerStartTime := by
  have hbtn : button s i
      = ({ s with buttonState := true, isButtonPressed := false }, [Effect.errorSound]) := by
    rw [button_release s i hp hb, release_short _ _ _ h1 h2]
    simp [shortPress, hw, hr]
  rw [hbtn]
  exact ⟨rfl, rfl, hw, rfl, rfl, rfl⟩

/-- Witness for C4: `Waiting` with 0 s set, the button released after 200 ms. -/
theorem short_press_zero_rejected_witness :
    (button { heldState with RemainingTime := 0 } (sample true 0 200000000)).2
        = [Effect.errorSound] ∧
    (button { heldState with RemainingTime := 0 } (sample true 0 200000000)).1.state
        = Waiting :=
  have h := short_press_zero_rejected { heldState with RemainingTime := 0 }
    (sample true 0 200000000) (by decide) (by decide) (by decide) (by decide) (by decide) rfl
  ⟨h.2.1, h.2.2.1⟩

/-- Claim C5. A tick of the `Countdown` case sets `RemainingTime` to
`PreviousRemainingTime - t / 1e9`, where `t = time.Since(timerStartTime)` and `/` is
Go's truncating division (the floor when the clock has not gone back); the
subtraction is exact for every `PreviousRemainingTime` of magnitude up to `2^62`, a
range that contains every value the variable takes. The tick leaves
`PreviousRemainingTime` and `timerStartTime` untouched, and two ticks from any two
states with the same `PreviousRemainingTime` at the same elapsed time give the same
`RemainingTime`, whatever `RemainingTime` was before. -/
theorem countdown_derived (s : State) (i : Input) (hc : s.state = Countdown) :
    (switchState s i).1.RemainingTime
      = wrapDuration (s.PreviousRemainingTime
          - (since i.tTick s.timerStartTime).tdiv 1000000000) ∧
    (-4611686018427387904 ≤ s.PreviousRemainingTime →
      s.PreviousRemainingTime ≤ 4611686018427387904 →
      (switchState s i).1.RemainingTime
        = s.PreviousRemainingTime - (since i.tTick s.timerStartTime).tdiv 1000000000) ∧
    (s.timerStartTime ≤ i.tTick →
      (since i.tTick s.timerStartTime).tdiv 1000000000
        = since i.tTick s.timerStartTime / 1000000000) ∧
    (switchState s i).1.PreviousRemainingTime = s.PreviousRemainingTime ∧
    (switchState s i).1.timerStartTime = s.timerStartTime ∧
    (∀ (s2 : State) (i2 : Input), s2.state = Countdown →
      s2.PreviousRemainingTime = s.PreviousRemainingTime →
      since i2.tTick s2.timerStartTime = since i.tTick s.timerStartTime →
      (switchState s2 i2).1.RemainingTime = (switchState s i).1.RemainingTime) := by
  refine ⟨?_, ?_, ?_, ?_, ?_, ?_⟩
  · rw [switchState_countdown s i hc, caseCountdown_remaining]
  · intro h1 h2
    rw [switchState_countdown s i hc, caseCountdown_remaining]
    have hb := tdiv_since_bounds i.tTick s.timerStartTime
    exact wrapDuration_eq _ (by omega) (by omega)
  · intro h
    exact tdiv_nonneg_eq _ (since_nonneg _ _ h)
  · rw [switchState_countdown s i hc]
    unfold caseCountdown
    simp only
    split_ifs <;> rfl
  · rw [switchState_countdown s i hc]
    unfold caseCountdown
    simp only
    split_ifs <;> rfl
  · intro s2 i2 hc2 hp ht
    rw [switchState_countdown s i hc, switchState_countdown s2 i2 hc2,
      caseCountdown_remaining, caseCountdown_remaining, hp, ht]

/-- Witness for C5: a countdown from 300 s, ticked 3.7 s after its start, shows 297 s,
also when `RemainingTime` held 12 s before the tick. -/
theorem countdown_derived_witness :
    countdownState.state = Countdown ∧
    (switchState countdownState (sample true 0 3700000000)).1.RemainingTime = 297 ∧
    (switchState { countdownState with RemainingTime := 12 }
      (sample true 0 3700000000)).1.RemainingTime = 297 :=
  have h := countdown_derived countdownState (sample true 0 3700000000) (by decide)
  ⟨by decide, (h.2.1 (by decide) (by decide)).trans (by decide),
    (h.2.2.2.2.2 { countdownState with RemainingTime := 12 } (sample true 0 3700000000)
      (by decide) rfl rfl).trans ((h.2.1 (by decide) (by decide)).trans (by decide))⟩

/-- Claim C6. A tick of the `Countdown` case whose derived `RemainingTime` is negative
sets `state = Waiting` and starts exactly one end melody (`go playThirori`); a tick in
mode `Waiting` starts none; and from any state in mode `Waiting`, a run in which no
press is handled stays in `Waiting` and starts no end melody. End to end
(`expiryInputs`): from `Waiting` with 2 s set, a short press enters `Countdown`, the
first tick at 3 s elapsed gives `Waiting` with one end melody started, and the count
is still one after the following iterations. -/
theorem expiry_fires_once :
    (∀ (s : State) (i : Input), s.state = Countdown →
      (switchState s i).1.RemainingTime < 0 →
      (switchState s i).1.state = Waiting ∧
      (switchState s i).2 = [Effect.go Melody.playThirori] ∧
      endMelodies (switchState s i).2 = 1) ∧
    (∀ (s : State) (i : Input), s.state = Waiting → endMelodies (switchState s i).2 = 0) ∧
    (∀ (s : State) (inputs : List Input), s.state = Waiting → noRelease s inputs = true →
      (run s inputs).1.state = Waiting ∧ endMelodies (run s inputs).2 = 0) ∧
    ((run initState (expiryInputs.take 1)).1.state = Waiting ∧
      (run initState (expiryInputs.take 1)).1.RemainingTime = 2 ∧
      (run initState (expiryInputs.take 3)).1.state = Countdown ∧
      endMelodies (run initState (expiryInputs.take 3)).2 = 0 ∧
      (run initState (expiryInputs.take 4)).1.state = Waiting ∧
      endMelodies (run initState (expiryInputs.take 4)).2 = 1 ∧
      (run initState expiryInputs).1.state = Waiting ∧
      endMelodies (run initState expiryInputs).2 = 1) := by
  refine ⟨?_, ?_, ?_, ?_⟩
  · intro s i hc hneg
    rw [switchState_countdown s i hc] at hneg ⊢
    obtain ⟨h1, h2⟩ := caseCountdown_expiry s i hneg
    exact ⟨h1, h2, by rw [h2]; rfl⟩
  · intro s i hw
    rw [switchState_waiting s i hw]
    exact caseWaiting_endMelodies s i
  · intro s inputs hw hn
    exact run_waiting_noRelease inputs s hw hn
  · decide

/-- Witness for C6: a countdown from 300 s ticked 301 s after its start. -/
theorem expiry_fires_once_witness :
    countdownState.state = Countdown ∧
    (switchState countdownState (sample true 0 301000000000)).1.RemainingTime < 0 ∧
    (switchState countdownState (sample true 0 301000000000)).1.state = Waiting ∧
    endMelodies (switchState countdownState (sample true 0 301000000000)).2 = 1 :=
  have h := expiry_fires_once.1 countdownState (sample true 0 301000000000) (by decide)
    (by decide)
  ⟨by decide, by decide, h.1, h.2.2⟩

/-- Counterexample to C7 as stated. In the run `longPressInputs` a countdown from
300 s is running when a press held for 1.2 s is released; the long-press branch runs
(it redraws 300 and plays `pipoSound`), yet at the end of that loop iteration
`RemainingTime` is 289, not `PreviousRemainingTime = 300`: the `Countdown` case of the
same iteration recomputes it from the elapsed time. -/
theorem long_press_restore_counterexample :
    (run initState (longPressInputs.take 3)).1.state = Countdown ∧
    (run initState (longPressInputs.take 3)).1.isButtonPressed = true ∧
    500000000 ≤ since 11200000000 (run initState (longPressInputs.take 3)).1.pressStartTime ∧
    (button (run initState (longPressInputs.take 3)).1 (sample true 0 11200000000)).2
      = [Effect.DispTime_oled 300, Effect.pipoSound] ∧
    (run initState longPressInputs).1
      = (mainLoopBody (run initState (longPressInputs.take 3)).1
          (sample true 0 11200000000)).1 ∧
    (run initState longPressInputs).1.PreviousRemainingTime = 300 ∧
    (run initState longPressInputs).1.RemainingTime = 289 ∧
    (run initState longPressInputs).1.RemainingTime
      ≠ (run initState longPressInputs).1.PreviousRemainingTime := by
  decide

/-- Claim C7, amended. In every state, the long-press branch (held `≥ 500 ms`)
assigns `RemainingTime = PreviousRemainingTime`, redraws and plays `pipoSound`, and
changes neither `state` nor `PreviousRemainingTime`. In mode `Waiting` with the encoder
unmoved this is also the state at the end of the loop iteration. In mode `Countdown`
the `Countdown` case of the same iteration overwrites `RemainingTime` with
`PreviousRemainingTime - elapsed`, so the iteration ends in the same state as it would
have without the press. -/
theorem long_press_restore (s : State) (i : Input)
    (hp : s.isButtonPressed = true) (hb : i.buttonState = true)
    (hl : 500000000 ≤ since i.tButton s.pressStartTime) :
    button s i =
      ({ s with buttonState := true, isButtonPressed := false,
                RemainingTime := s.PreviousRemainingTime },
        [Effect.DispTime_oled s.PreviousRemainingTime, Effect.pipoSound]) ∧
    (button s i).1.RemainingTime = s.PreviousRemainingTime ∧
    (button s i).1.state = s.state ∧
    (button s i).1.PreviousRemainingTime = s.PreviousRemainingTime ∧
    (s.state = Waiting → i.position = s.oldValue →
      (mainLoopBody s i).1.RemainingTime = s.PreviousRemainingTime ∧
      (mainLoopBody s i).1.state = Waiting ∧
      (mainLoopBody s i).1.PreviousRemainingTime = s.PreviousRemainingTime ∧
      (mainLoopBody s i).2
        = [Effect.DispTime_oled s.PreviousRemainingTime, Effect.pipoSound]) ∧
    (s.state = Countdown →
      (mainLoopBody s i).1.RemainingTime
        = wrapDuration (s.PreviousRemainingTime
            - (since i.tTick s.timerStartTime).tdiv 1000000000) ∧
      (mainLoopBody s i).1.PreviousRemainingTime = s.PreviousRemainingTime ∧
      (mainLoopBody s i).1 = (mainLoopBody { s with isButtonPressed := false } i).1) := by
  have hbtn := button_long s i hp hb hl
  refine ⟨hbtn, by rw [hbtn], by rw [hbtn], by rw [hbtn], ?_, ?_⟩
  · intro hw he
    simp only [mainLoopBody, hbtn]
    rw [switchState_waiting _ _ (by exact hw)]
    simp [caseWaiting, he, hw]
  · intro hc
    have hidle := button_idle { s with isButtonPressed := false } i rfl hb
    simp only [mainLoopBody, hbtn, hidle]
    rw [switchState_countdown _ _ (by exact hc), switchState_countdown _ _ (by exact hc)]
    unfold caseCountdown
    simp only
    split_ifs <;> simp

/-- Witness for C7: in `Waiting` with 42 s showing and 300 s committed, a press held
for 600 ms restores 300 s. -/
theorem long_press_restore_witness :
    (button { heldState with RemainingTime := 42 } (sample true 0 600000000)).1.RemainingTime
      = 300 ∧
    (mainLoopBody { heldState with RemainingTime := 42 }
      (sample true 0 600000000)).1.RemainingTime = 300 :=
  have h := long_press_restore { heldState with RemainingTime := 42 }
    (sample true 0 600000000) (by decide) (by decide) (by decide)
  ⟨h.2.1, (h.2.2.2.2.1 (by decide) (by decide)).1⟩

/-- Claim C8. In every state, a press released after less than 100 ms has no effect
at all in the button handler (no tone, no redraw) and changes no variable other than
the button flags; the whole loop iteration yields the same state and the same effects
as it does when no press is in progress. -/
theorem noise_press_inert (s : State) (i : Input)
    (hp : s.isButtonPressed = true) (hb : i.buttonState = true)
    (hn : since i.tButton s.pressStartTime < 100000000) :
    button s i = ({ s with buttonState := true, isButtonPressed := false }, []) ∧
    (button s i).2 = [] ∧
    (button s i).1.state = s.state ∧
    (button s i).1.RemainingTime = s.RemainingTime ∧
    (button s i).1.PreviousRemainingTime = s.PreviousRemainingTime ∧
    (button s i).1.timerStartTime = s.timerStartTime ∧
    mainLoopBody s i = mainLoopBody { s with isButtonPressed := false } i := by
  have hbtn : button s i = ({ s with buttonState := true, isButtonPressed := false }, []) := by
    rw [button_release s i hp hb, release_noise _ _ _ hn]
    rfl
  have hidle := button_idle { s with isButtonPressed := false } i rfl hb
  refine ⟨hbtn, by rw [hbtn], by rw [hbtn], by rw [hbtn], by rw [hbtn], by rw [hbtn], ?_⟩
  simp only [mainLoopBody, hbtn, hidle]

/-- Witness for C8: the held button of `heldState` released after 50 ms. -/
theorem noise_press_inert_witness :
    heldState.isButtonPressed = true ∧
    since (sample true 0 50000000).tButton heldState.pressStartTime < 100000000 ∧
    (button heldState (sample true 0 50000000)).2 = [] ∧
    (button heldState (sample true 0 50000000)).1.state = heldState.state :=
  have h := noise_press_inert heldState (sample true 0 50000000) (by decide) (by decide)
    (by decide)
  ⟨by decide, by decide, h.2.1, h.2.2.1⟩

/-- Counterexample to C9 as stated. The runs `turnedInputs` and `steadyInputs` differ
only in the encoder position, and only in iterations that begin in mode `Countdown`:
in the first the encoder goes from 0 to 7 while the countdown runs, in the second it
stays at 0. Both countdowns are cancelled by the same press. Afterwards
`RemainingTime` is 306 in the first run and 299 in the second: the rotation made
during `Countdown` is added by the `Waiting` case of the cancelling iteration. -/
theorem encoder_during_countdown_counterexample :
    steadyInputs = turnedInputs.map (fun i => { i with position := 0 }) ∧
    turnedInputs.map (fun i => i.position) = [0, 0, 7, 7, 7] ∧
    (run initState (turnedInputs.take 2)).1.state = Countdown ∧
    (run initState (turnedInputs.take 3)).1.state = Countdown ∧
    (run initState (turnedInputs.take 4)).1.state = Countdown ∧
    (run initState turnedInputs).1.state = Waiting ∧
    (run initState steadyInputs).1.state = Waiting ∧
    (run initState turnedInputs).1.RemainingTime = 306 ∧
    (run initState steadyInputs).1.RemainingTime = 299 ∧
    (run initState turnedInputs).1.RemainingTime
      ≠ (run initState steadyInputs).1.RemainingTime := by
  decide

/-- Claim C9, amended. A loop iteration whose `switch` runs the `Countdown` case does
not read the encoder: it yields the same state and effects for every encoder
position, and it leaves `oldValue` as it was. The rotation made during `Countdown` is
therefore still pending when the mode returns to `Waiting`: the iteration in which a
short press cancels the countdown ends in `Waiting` with `RemainingTime` equal to its
prior value plus `position - oldValue`, clamped to `[MinTime, MaxTime]` (for a prior
value within the bounds and a difference that fits a Go `int`). -/
theorem encoder_during_countdown (s : State) (i : Input)
    (hsw : (button s i).1.state = Countdown) :
    (∀ p : Int, mainLoopBody s { i with position := p } = mainLoopBody s i) ∧
    (mainLoopBody s i).1.oldValue = s.oldValue ∧
    (∀ (c : State) (j : Input), c.state = Countdown → c.isButtonPressed = true →
      j.buttonState = true → 100000000 ≤ since j.tButton c.pressStartTime →
      since j.tButton c.pressStartTime < 500000000 →
      MinTime ≤ c.RemainingTime → c.RemainingTime ≤ MaxTime →
      -2147483648 < j.position - c.oldValue → j.position - c.oldValue < 2147483648 →
      (mainLoopBody c j).1.state = Waiting ∧
      (mainLoopBody c j).1.RemainingTime
        = max MinTime (min MaxTime (c.RemainingTime + (j.position - c.oldValue))) ∧
      (mainLoopBody c j).1.oldValue = j.position) := by
  refine ⟨?_, ?_, ?_⟩
  · intro p
    simp only [mainLoopBody, button_position]
    rw [switchState_countdown _ _ hsw, switchState_countdown _ _ hsw, caseCountdown_position]
  · simp only [mainLoopBody]
    rw [switchState_countdown _ _ hsw, caseCountdown_oldValue, button_oldValue]
  · intro c j hc hp hb h1 h2 hr1 hr2 hd1 hd2
    have hbtn := button_cancel c j hp hb h1 h2 hc
    simp only [MinTime, MaxTime] at hr1 hr2
    obtain ⟨a1, a2, a3, _, a5⟩ := caseWaiting_remaining
      { c with buttonState := true, isButtonPressed := false, state := Waiting } j
      hd1 hd2 (by simp only; omega) (by simp only; omega)
    simp only [mainLoopBody, hbtn]
    rw [switchState_waiting _ _ rfl]
    refine ⟨by rw [caseWaiting_state], ?_, a5⟩
    simp only [MinTime, MaxTime] at a1 a2 a3 ⊢
    rcases Int.lt_trichotomy (j.position - c.oldValue) 0 with h | h | h
    · rw [a2 h]; omega
    · rw [(a3 h).1]; omega
    · rw [a1 h]; omega

/-- Witness for C9: a running countdown from 300 s; the iteration at 1 s gives the
same result with the encoder at 7 as with the encoder at 0; cancelled at 2.2 s with the
encoder at 7, the 300 s showing become 307 s. -/
theorem encoder_during_countdown_witness :
    (button countdownState (sample true 0 1000000000)).1.state = Countdown ∧
    mainLoopBody countdownState { sample true 0 1000000000 with position := 7 }
      = mainLoopBody countdownState (sample true 0 1000000000) ∧
    (mainLoopBody countdownState (sample true 0 1000000000)).1.oldValue = 0 ∧
    (mainLoopBody { countdownState with isButtonPressed := true, pressStartTime := 2000000000 }
      (sample true 7 2200000000)).1.RemainingTime = 307 :=
  have h := encoder_during_countdown countdownState (sample true 0 1000000000) (by decide)
  ⟨by decide, h.1 7, h.2.1,
    (h.2.2 { countdownState with isButtonPressed := true, pressStartTime := 2000000000 }
      (sample true 7 2200000000) (by decide) (by decide) (by decide) (by decide) (by decide)
      (by decide) (by decide) (by decide) (by decide)).2.1.trans (by decide)⟩

/-- Counterexample to C10 as stated. First, a delta that does not fit the negation:
in the initial state (`Waiting`, 300 s, `oldValue = 0`) the encoder read at `-2^31`
takes the branch for a non-positive delta, whose `oldValue - newValue` wraps, and
leaves `RemainingTime = 2147483948`, which is neither the clamped sum `0` nor at most
`MaxTime`. Second, the state after an expiry at the loop's pace: the eighth iteration
of `pacedInputs` ends in `Waiting` with `RemainingTime = -1`, and an iteration with
the encoder unmoved (`d = 0`) leaves `-1`, which is neither the clamped sum `0` nor
at least `MinTime`. -/
theorem encoder_adjust_counterexample :
    initState.state = Waiting ∧
    (switchState initState (sample true (-2147483648) 0)).1.RemainingTime = 2147483948 ∧
    max MinTime (min MaxTime (initState.RemainingTime + (-2147483648 - initState.oldValue)))
      = 0 ∧
    ¬ ((switchState initState (sample true (-2147483648) 0)).1.RemainingTime ≤ MaxTime) ∧
    clockOK 0 (pacedInputs.take 8) = true ∧ encoderOK (pacedInputs.take 8) = true ∧
    paceOK 0 initState (pacedInputs.take 8) = true ∧
    (run initState (pacedInputs.take 8)).1.state = Waiting ∧
    (run initState (pacedInputs.take 8)).1.RemainingTime = -1 ∧
    (run initState (pacedInputs.take 8)).1.oldValue = -298 ∧
    (switchState (run initState (pacedInputs.take 8)).1
      (sample true (-298) 4705000000)).1.RemainingTime = -1 ∧
    max MinTime (min MaxTime (-1 + (-298 - -298))) = 0 ∧
    ¬ (MinTime ≤ (switchState (run initState (pacedInputs.take 8)).1
          (sample true (-298) 4705000000)).1.RemainingTime) := by
  decide

/-- Claim C10, amended. In mode `Waiting` with `-1 ≤ RemainingTime ≤ MaxTime` (the
values the variable takes in a run at the loop's pace), for every encoder delta
`d = position - oldValue` that fits a Go `int` (`|d| < 2^31`): when `d ≠ 0`, the
`Waiting` case leaves `RemainingTime` equal to the prior value plus `d` clamped to
`[MinTime, MaxTime]`, hence within the bounds, and redraws it once; when `d = 0`,
`RemainingTime` is unchanged and nothing is redrawn, so the clamped form and the
bounds hold for `d = 0` too when the prior value is at least `MinTime`. `oldValue`
becomes the position read. -/
theorem encoder_adjust_clamps (s : State) (i : Input) (hw : s.state = Waiting)
    (hd1 : -2147483648 < i.position - s.oldValue) (hd2 : i.position - s.oldValue < 2147483648)
    (hr1 : -1 ≤ s.RemainingTime) (hr2 : s.RemainingTime ≤ MaxTime) :
    (i.position - s.oldValue ≠ 0 →
      (switchState s i).1.RemainingTime
        = max MinTime (min MaxTime (s.RemainingTime + (i.position - s.oldValue))) ∧
      MinTime ≤ (switchState s i).1.RemainingTime ∧
      (switchState s i).1.RemainingTime ≤ MaxTime ∧
      (switchState s i).2 = [Effect.DispTime_oled (switchState s i).1.RemainingTime]) ∧
    (i.position - s.oldValue = 0 →
      (switchState s i).1.RemainingTime = s.RemainingTime ∧ (switchState s i).2 = []) ∧
    (MinTime ≤ s.RemainingTime →
      (switchState s i).1.RemainingTime
        = max MinTime (min MaxTime (s.RemainingTime + (i.position - s.oldValue))) ∧
      MinTime ≤ (switchState s i).1.RemainingTime ∧
      (switchState s i).1.RemainingTime ≤ MaxTime) ∧
    (switchState s i).1.oldValue = i.position ∧
    (switchState s i).1.state = Waiting := by
  simp only [MinTime, MaxTime] at hr2 ⊢
  obtain ⟨a1, a2, a3, a4, a5⟩ := caseWaiting_remaining s i hd1 hd2 (by omega) (by omega)
  simp only [MinTime, MaxTime] at a1 a2
  rw [switchState_waiting s i hw]
  refine ⟨fun hne => ?_, a3, fun hmin => ?_, a5, by rw [caseWaiting_state]; exact hw⟩
  · refine ⟨?_, ?_, ?_, a4 hne⟩
    all_goals
      rcases Int.lt_or_gt_of_ne hne with h | h
      · rw [a2 h]; omega
      · rw [a1 h]; omega
  · refine ⟨?_, ?_, ?_⟩
    all_goals
      rcases Int.lt_trichotomy (i.position - s.oldValue) 0 with h | h | h
      · rw [a2 h]; omega
      · rw [(a3 h).1]; omega
      · rw [a1 h]; omega

/-- Witness for C10: from the initial 300 s, the encoder read at 10000 gives the
maximum 5940 s; from the -1 s that an expiry leaves, one count up gives 0 s. -/
theorem encoder_adjust_clamps_witness :
    initState.state = Waiting ∧
    (switchState initState (sample true 10000 0)).1.RemainingTime = 5940 ∧
    (switchState initState (sample true 10000 0)).2 = [Effect.DispTime_oled 5940] ∧
    (switchState { initState with RemainingTime := -1 } (sample true 1 0)).1.RemainingTime
      = 0 :=
  have h := encoder_adjust_clamps initState (sample true 10000 0) (by decide) (by decide)
    (by decide) (by decide) (by decide)
  have hv : (switchState initState (sample true 10000 0)).1.RemainingTime = 5940 :=
    (h.1 (by decide)).1.trans (by decide)
  have h2 := encoder_adjust_clamps { initState with RemainingTime := -1 } (sample true 1 0)
    (by decide) (by decide) (by decide) (by decide) (by decide)
  ⟨by decide, hv, (h.1 (by decide)).2.2.2.trans (by rw [hv]),
    (h2.1 (by decide)).1.trans (by decide)⟩

/-- Counterexample to C11 as stated. In the run `turnedInputs` the countdown shows
299 s when the short press that cancels it is released, with the encoder at 7 and
`oldValue` still 0. The iteration sets `state = Waiting` and plays the click, but it
ends with `RemainingTime = 306`: the `Waiting` case of the same iteration adds the
seven counts. -/
theorem cancel_keeps_remaining_counterexample :
    (run initState (turnedInputs.take 4)).1.state = Countdown ∧
    (run initState (turnedInputs.take 4)).1.RemainingTime = 299 ∧
    (run initState (turnedInputs.take 4)).1.isButtonPressed = true ∧
    100000000 ≤ since 2200000000 (run initState (turnedInputs.take 4)).1.pressStartTime ∧
    since 2200000000 (run initState (turnedInputs.take 4)).1.pressStartTime < 500000000 ∧
    (mainLoopBody (run initState (turnedInputs.take 4)).1
      (sample true 7 2200000000)).1.state = Waiting ∧
    (mainLoopBody (run initState (turnedInputs.take 4)).1 (sample true 7 2200000000)).2
      = [Effect.clickSound, Effect.DispTime_oled 306] ∧
    (mainLoopBody (run initState (turnedInputs.take 4)).1
      (sample true 7 2200000000)).1.RemainingTime = 306 ∧
    (mainLoopBody (run initState (turnedInputs.take 4)).1
      (sample true 7 2200000000)).1.RemainingTime
      ≠ (run initState (turnedInputs.take 4)).1.RemainingTime := by
  decide

/-- Claim C11, amended. In mode `Countdown` with `RemainingTime = r`, a short press sets
`state = Waiting` and plays the click, and the loop iteration ends in `Waiting` with
`PreviousRemainingTime` unchanged. `RemainingTime = r` at the end of that iteration
when the encoder position read equals `oldValue` (then the click is the only effect);
otherwise the `Waiting` case of the same iteration applies the pending encoder
difference: for `r` within `[MinTime, MaxTime]` and a difference that fits a Go `int`,
`RemainingTime` is `r + (position - oldValue)` clamped to `[MinTime, MaxTime]`. -/
theorem cancel_keeps_remaining (s : State) (i : Input) (r : Int)
    (hc : s.state = Countdown) (hr : s.RemainingTime = r)
    (hp : s.isButtonPressed = true) (hb : i.buttonState = true)
    (h1 : 100000000 ≤ since i.tButton s.pressStartTime)
    (h2 : since i.tButton s.pressStartTime < 500000000) :
    button s i =
      ({ s with buttonState := true, isButtonPressed := false, state := Waiting },
        [Effect.clickSound]) ∧
    (mainLoopBody s i).1.state = Waiting ∧
    (mainLoopBody s i).1.PreviousRemainingTime = s.PreviousRemainingTime ∧
    (i.position = s.oldValue →
      (mainLoopBody s i).1.RemainingTime = r ∧ (mainLoopBody s i).2 = [Effect.clickSound]) ∧
    (MinTime ≤ r → r ≤ MaxTime →
      -2147483648 < i.position - s.oldValue → i.position - s.oldValue < 2147483648 →
      (mainLoopBody s i).1.RemainingTime
        = max MinTime (min MaxTime (r + (i.position - s.oldValue)))) := by
  have hbtn := button_cancel s i hp hb h1 h2 hc
  refine ⟨hbtn, ?_, ?_, ?_, ?_⟩
  · simp only [mainLoopBody, hbtn]
    rw [switchState_waiting _ _ rfl, caseWaiting_state]
  · simp only [mainLoopBody, hbtn]
    rw [switchState_waiting _ _ rfl]
    unfold caseWaiting
    simp only
    split_ifs <;> rfl
  · intro he
    simp only [mainLoopBody, hbtn]
    rw [switchState_waiting _ _ rfl]
    simp [caseWaiting, he, hr]
  · intro hr1 hr2 hd1 hd2
    subst hr
    simp only [MinTime, MaxTime] at hr1 hr2
    obtain ⟨a1, a2, a3, _, _⟩ := caseWaiting_remaining
      { s with buttonState := true, isButtonPressed := false, state := Waiting } i
      hd1 hd2 (by simp only; omega) (by simp only; omega)
    simp only [mainLoopBody, hbtn]
    rw [switchState_waiting _ _ rfl]
    simp only [MinTime, MaxTime] at a1 a2 a3 ⊢
    rcases Int.lt_trichotomy (i.position - s.oldValue) 0 with h | h | h
    · rw [a2 h]; omega
    · rw [(a3 h).1]; omega
    · rw [a1 h]; omega

/-- Witness for C11: a countdown showing 300 s, cancelled by a 200 ms press with the
encoder unmoved, still shows 300 s. -/
theorem cancel_keeps_remaining_witness :
    (mainLoopBody { countdownState with isButtonPressed := true, pressStartTime := 2000000000 }
      (sample true 0 2200000000)).1.state = Waiting ∧
    (mainLoopBody { countdownState with isButtonPressed := true, pressStartTime := 2000000000 }
      (sample true 0 2200000000)).1.RemainingTime = 300 ∧
    (mainLoopBody { countdownState with isButtonPressed := true, pressStartTime := 2000000000 }
      (sample true 0 2200000000)).2 = [Effect.clickSound] :=
  have h := cancel_keeps_remaining
    { countdownState with isButtonPressed := true, pressStartTime := 2000000000 }
    (sample true 0 2200000000) 300 (by decide) (by decide) (by decide) (by decide)
    (by decide) (by decide)
  ⟨h.2.1, (h.2.2.2.1 (by decide)).1, (h.2.2.2.1 (by decide)).2⟩

theorem button_pressed_sample (s : State) (i : Input) (hb : i.buttonState = false) :
    (button s i).2 = [] ∧ (button s i).1.state = s.state ∧
    (button s i).1.RemainingTime = s.RemainingTime ∧
    (button s i).1.PreviousRemainingTime = s.PreviousRemainingTime ∧
    (button s i).1.isButtonPressed = true ∧
    (button s i).1.pressStartTime
      = (if s.isButtonPressed = true then s.pressStartTime else i.tButton) := by
  unfold button
  cases hp : s.isButtonPressed <;> simp [hb, hp]

theorem switchState_flags (s : State) (i : Input) :
    (switchState s i).1.isButtonPressed = s.isButtonPressed ∧
    (switchState s i).1.pressStartTime = s.pressStartTime := by
  unfold switchState caseWaiting caseCountdown
  simp only
  split_ifs <;> exact ⟨rfl, rfl⟩

theorem button_isButtonPressed (s : State) (i : Input) :
    (button s i).1.isButtonPressed = !i.buttonState := by
  unfold button release longPress shortPress noisePress
  cases hb : i.buttonState <;> cases hp : s.isButtonPressed <;> simp
  split_ifs <;> rfl

theorem mainLoopBody_isButtonPressed (s : State) (i : Input) :
    (mainLoopBody s i).1.isButtonPressed = !i.buttonState := by
  simp only [mainLoopBody]
  rw [(switchState_flags _ i).1, button_isButtonPressed]

theorem classifications_eq_releaseEdges (inputs : List Input) :
    ∀ s : State, classifications s inputs = releaseEdges s.isButtonPressed inputs := by
  induction inputs with
  | nil => intro s; rfl
  | cons i rest ih =>
    intro s
    simp only [classifications, releaseEdges, classifies]
    rw [ih, mainLoopBody_isButtonPressed]
    simp only [Bool.and_comm]

theorem run_held (held : List Input) :
    ∀ s : State, s.isButtonPressed = true → (∀ h ∈ held, h.buttonState = false) →
      (run s held).1.isButtonPressed = true ∧
      (run s held).1.pressStartTime = s.pressStartTime ∧
      classifications s held = 0 := by
  induction held with
  | nil => intro s hp _; exact ⟨hp, rfl, rfl⟩
  | cons i rest ih =>
    intro s hp hall
    have hb : i.buttonState = false := hall i (List.mem_cons_self _ _)
    obtain ⟨_, _, _, _, b5, b6⟩ := button_pressed_sample s i hb
    have f := switchState_flags (button s i).1 i
    have m1 : (mainLoopBody s i).1.isButtonPressed = true := by
      simp only [mainLoopBody]; rw [f.1, b5]
    have m2 : (mainLoopBody s i).1.pressStartTime = s.pressStartTime := by
      simp only [mainLoopBody]; rw [f.2, b6, if_pos hp]
    obtain ⟨r1, r2, r3⟩ := ih (mainLoopBody s i).1 m1
      (fun h hh => hall h (List.mem_cons_of_mem _ hh))
    refine ⟨r1, r2.trans m2, ?_⟩
    simp only [classifications, classifies, hb, Bool.false_and]
    simpa using r3

theorem releaseEdges_held (held : List Input) (r : Input)
    (hall : ∀ h ∈ held, h.buttonState = false) (hr : r.buttonState = true) :
    releaseEdges true (held ++ [r]) = 1 := by
  induction held with
  | nil => simp [releaseEdges, hr]
  | cons i rest ih =>
    have hb : i.buttonState = false := hall i (List.mem_cons_self _ _)
    have := ih (fun h hh => hall h (List.mem_cons_of_mem _ hh))
    simp only [List.cons_append, releaseEdges, hb, Bool.and_false, Bool.not_false]
    simpa using this

/-- Claim C12. In an iteration whose pin sample is "pressed" the button handler
classifies nothing: it has no effect and changes neither `state`, `RemainingTime` nor
`PreviousRemainingTime`. For every stream of samples from every state, the number of
iterations that classify a press equals the number of pressed-to-released transitions
of the stream. For a press that begins when no press is in progress and is followed
by a released sample, nothing is classified while the button is held, and the
iteration that reads the released sample classifies once, measuring the held duration
from the clock read at the first pressed sample; after it no press is in progress. -/
theorem no_event_while_held :
    (∀ (s : State) (i : Input), i.buttonState = false →
      classifies s i = false ∧ (button s i).2 = [] ∧ (button s i).1.state = s.state ∧
      (button s i).1.RemainingTime = s.RemainingTime ∧
      (button s i).1.PreviousRemainingTime = s.PreviousRemainingTime) ∧
    (∀ (s : State) (inputs : List Input),
      classifications s inputs = releaseEdges s.isButtonPressed inputs) ∧
    (∀ (s : State) (p : Input) (held : List Input) (r : Input),
      s.isButtonPressed = false → p.buttonState = false →
      (∀ h ∈ held, h.buttonState = false) → r.buttonState = true →
      classifications s (p :: held) = 0 ∧
      (run s (p :: held)).1.isButtonPressed = true ∧
      (run s (p :: held)).1.pressStartTime = p.tButton ∧
      classifies (run s (p :: held)).1 r = true ∧
      button (run s (p :: held)).1 r
        = release { (run s (p :: held)).1 with buttonState := true }
            (since r.tButton p.tButton) r.tStart ∧
      classifications s (p :: held ++ [r]) = 1 ∧
      (mainLoopBody (run s (p :: held)).1 r).1.isButtonPressed = false) := by
  refine ⟨?_, ?_, ?_⟩
  · intro s i hb
    obtain ⟨b1, b2, b3, b4, _, _⟩ := button_pressed_sample s i hb
    exact ⟨by simp [classifies, hb], b1, b2, b3, b4⟩
  · intro s inputs
    exact classifications_eq_releaseEdges inputs s
  · intro s p held r hs hp hall hr
    obtain ⟨_, _, _, _, b5, b6⟩ := button_pressed_sample s p hp
    have f := switchState_flags (button s p).1 p
    have m1 : (mainLoopBody s p).1.isButtonPressed = true := by
      simp only [mainLoopBody]; rw [f.1, b5]
    have m2 : (mainLoopBody s p).1.pressStartTime = p.tButton := by
      simp only [mainLoopBody]; rw [f.2, b6, hs]; rfl
    obtain ⟨r1, r2, r3⟩ := run_held held (mainLoopBody s p).1 m1 hall
    have e1 : (run s (p :: held)).1.isButtonPressed = true := by
      simp only [run]; exact r1
    have e2 : (run s (p :: held)).1.pressStartTime = p.tButton := by
      simp only [run]; exact r2.trans m2
    refine ⟨?_, e1, e2, by simp [classifies, hr, e1], ?_, ?_, ?_⟩
    · simp only [classifications, classifies, hp, Bool.false_and]
      simpa using r3
    · rw [button_release _ r e1 hr]
      simp only [e2]
    · rw [classifications_eq_releaseEdges, hs]
      simp only [List.cons_append, releaseEdges, hp, Bool.and_false, Bool.not_false,
        Bool.false_and]
      simpa using releaseEdges_held held r hall hr
    · rw [mainLoopBody_isButtonPressed, hr]; rfl

/-- Witness for C12: from the initial state the button is pressed at 1.0 s, still held
at 1.005 s and released at 1.25 s; the one classification measures 250 ms. -/
theorem no_event_while_held_witness :
    classifications initState
      (sample false 0 1000000000 :: [sample false 0 1005000000]
        ++ [sample true 0 1250000000]) = 1 ∧
    (run initState
      (sample false 0 1000000000 :: [sample false 0 1005000000])).1.pressStartTime
      = 1000000000 ∧
    since (sample true 0 1250000000).tButton (sample false 0 1000000000).tButton
      = 250000000 :=
  have h := no_event_while_held.2.2 initState (sample false 0 1000000000)
    [sample false 0 1005000000] (sample true 0 1250000000) (by decide) (by decide)
    (by decide) (by decide)
  ⟨h.2.2.2.2.2.1, h.2.2.1, by decide⟩

/-- Claim C13. With the sleeps in nanoseconds (`ms * time.Millisecond`), the
`(SetNote, Sleep)` steps of `playJISS0013end` are 10 repetitions of
`[A7 100, mute 100, A7 500, mute 500]`, those of `playThirori` are 3 repetitions of
`[G6 240, E6 240, G6 240, 0 240]`, those of `playColorTimer` are 20 repetitions of
`[A6 200, D6 400]`, and the three functions sleep 12000 ms, 2880 ms and 12000 ms in
total, whatever the values of the note constants. -/
theorem end_melody_steps (tn : ToneNotes) :
    steps (playJISS0013end tn)
      = (List.replicate 10 [(tn.A7, 100 * Millisecond), (mute, 100 * Millisecond),
          (tn.A7, 500 * Millisecond), (mute, 500 * Millisecond)]).flatten ∧
    steps (playThirori tn)
      = (List.replicate 3 [(tn.G6, 240 * Millisecond), (tn.E6, 240 * Millisecond),
          (tn.G6, 240 * Millisecond), (0, 240 * Millisecond)]).flatten ∧
    steps (playColorTimer tn)
      = (List.replicate 20 [(tn.A6, 200 * Millisecond), (tn.D6, 400 * Millisecond)]).flatten ∧
    totalSleep (playJISS0013end tn) = 12000 * Millisecond ∧
    totalSleep (playThirori tn) = 2880 * Millisecond ∧
    totalSleep (playColorTimer tn) = 12000 * Millisecond ∧
    12000 * Millisecond = 12000000000 ∧ 2880 * Millisecond = 2880000000 := by
  refine ⟨?_, ?_, ?_, ?_, ?_, ?_, ?_, ?_⟩
  · rfl
  · rfl
  · rfl
  · rfl
  · rfl
  · rfl
  · decide
  · decide

/-- Claim C14. For each of `clickSound`, `errorSound`, `pipoSound`, `playJISS0013end`,
`playThirori` and `playColorTimer`, the last operation on the speaker is
`SetNote(mute)` with `mute = 0`, so the speaker holds note 0 when the function returns,
whatever it held before; and `pipoSound` performs exactly
`SetNote(B6)`, sleep 100 ms, `SetNote(mute)`, sleep 20 ms, `SetNote(B5)`, sleep 100 ms,
`SetNote(mute)`. -/
theorem melodies_end_muted (tn : ToneNotes) (n0 : Int) :
    mute = 0 ∧
    lastSpeakerOp (clickSound tn) = some (SpeakerOp.SetNote mute) ∧
    lastSpeakerOp (errorSound tn) = some (SpeakerOp.SetNote mute) ∧
    lastSpeakerOp (pipoSound tn) = some (SpeakerOp.SetNote mute) ∧
    lastSpeakerOp (playJISS0013end tn) = some (SpeakerOp.SetNote mute) ∧
    lastSpeakerOp (playThirori tn) = some (SpeakerOp.SetNote mute) ∧
    lastSpeakerOp (playColorTimer tn) = some (SpeakerOp.SetNote mute) ∧
    lastNote n0 (clickSound tn) = 0 ∧
    lastNote n0 (errorSound tn) = 0 ∧
    lastNote n0 (pipoSound tn) = 0 ∧
    lastNote n0 (playJISS0013end tn) = 0 ∧
    lastNote n0 (playThirori tn) = 0 ∧
    lastNote n0 (playColorTimer tn) = 0 ∧
    pipoSound tn
      = [SpeakerOp.SetNote tn.B6, SpeakerOp.Sleep 100000000, SpeakerOp.SetNote 0,
         SpeakerOp.Sleep 20000000, SpeakerOp.SetNote tn.B5, SpeakerOp.Sleep 100000000,
         SpeakerOp.SetNote 0] ∧
    steps (pipoSound tn) = [(tn.B6, 100000000), (0, 20000000), (tn.B5, 100000000)] := by
  refine ⟨rfl, ?_, ?_, ?_, ?_, ?_, ?_, ?_, ?_, ?_, ?_, ?_, ?_, ?_, ?_⟩
  all_goals rfl

/-- Claim C15. When the loop is first entered, `state = Waiting`, `RemainingTime` is
300 s, `PreviousRemainingTime = RemainingTime`, `isButtonPressed = false` and
`oldValue = 0`; a run of no iteration leaves these variables as they are, and the
display has been drawn once, with 300 s. -/
theorem initial_state :
    initState.state = Waiting ∧
    initState.RemainingTime = 300 ∧
    initState.PreviousRemainingTime = initState.RemainingTime ∧
    initState.isButtonPressed = false ∧
    initState.oldValue = 0 ∧
    (run initState []).1 = initState ∧
    displayed startupEffects = [300] := by
  refine ⟨rfl, rfl, rfl, rfl, rfl, rfl, ?_⟩
  decide

theorem button_mode (s : State) (i : Input) (h : s.state = Waiting ∨ s.state = Countdown) :
    ((button s i).1.state = Waiting ∨ (button s i).1.state = Countdown) ∧
    ∀ m : Melody, Effect.go m ∉ (button s i).2 := by
  unfold button release longPress shortPress noisePress
  simp only
  split_ifs <;> simp_all

theorem switchState_mode (s : State) (i : Input)
    (h : s.state = Waiting ∨ s.state = Countdown) :
    ((switchState s i).1.state = Waiting ∨ (switchState s i).1.state = Countdown) ∧
    ∀ m : Melody, Effect.go m ∈ (switchState s i).2 → m = Melody.playThirori := by
  unfold switchState caseWaiting caseCountdown endMelody choice
  simp only
  split_ifs <;> simp_all

theorem mainLoopBody_mode (s : State) (i : Input)
    (h : s.state = Waiting ∨ s.state = Countdown) :
    ((mainLoopBody s i).1.state = Waiting ∨ (mainLoopBody s i).1.state = Countdown) ∧
    ∀ m : Melody, Effect.go m ∈ (mainLoopBody s i).2 → m = Melody.playThirori := by
  obtain ⟨b1, b2⟩ := button_mode s i h
  obtain ⟨c1, c2⟩ := switchState_mode (button s i).1 i b1
  refine ⟨c1, fun m hm => ?_⟩
  simp only [mainLoopBody, List.mem_append] at hm
  rcases hm with hm | hm
  · exact absurd hm (b2 m)
  · exact c2 m hm

theorem run_mode (inputs : List Input) :
    ∀ s : State, (s.state = Waiting ∨ s.state = Countdown) →
      ((run s inputs).1.state = Waiting ∨ (run s inputs).1.state = Countdown) ∧
      ∀ m : Melody, Effect.go m ∈ (run s inputs).2 → m = Melody.playThirori := by
  induction inputs with
  | nil => intro s h; exact ⟨h, fun m hm => by simp [run] at hm⟩
  | cons i rest ih =>
    intro s h
    obtain ⟨m1, m2⟩ := mainLoopBody_mode s i h
    obtain ⟨r1, r2⟩ := ih (mainLoopBody s i).1 m1
    refine ⟨r1, fun m hm => ?_⟩
    simp only [run, List.mem_append] at hm
    rcases hm with hm | hm
    · exact m2 m hm
    · exact r2 m hm

/-- Claim C17. After any sequence of loop iterations from the initial state, whatever
the inputs, `state` is `Waiting` or `Countdown` and never `Reset`; every melody
started with `go` is `playThirori`, never `playJISS0013end` or `playColorTimer`; and the
hard-coded `choice` is 1. -/
theorem mode_two_valued (inputs : List Input) :
    ((run initState inputs).1.state = Waiting ∨ (run initState inputs).1.state = Countdown) ∧
    (run initState inputs).1.state ≠ Reset ∧
    (∀ m : Melody, Effect.go m ∈ (run initState inputs).2 → m = Melody.playThirori) ∧
    Effect.go Melody.playJISS0013end ∉ (run initState inputs).2 ∧
    Effect.go Melody.playColorTimer ∉ (run initState inputs).2 ∧
    choice = 1 ∧ endMelody choice = [Effect.go Melody.playThirori] := by
  obtain ⟨h1, h2⟩ := run_mode inputs initState (Or.inl rfl)
  refine ⟨h1, ?_, h2, fun h => ?_, fun h => ?_, rfl, rfl⟩
  · rcases h1 with h | h <;> rw [h] <;> decide
  · exact absurd (h2 _ h) (by decide)
  · exact absurd (h2 _ h) (by decide)

theorem caseCountdown_exact (s : State) (i : Input)
    (hp1 : -4611686018427387904 ≤ s.PreviousRemainingTime)
    (hp2 : s.PreviousRemainingTime ≤ 4611686018427387904)
    (hclk : s.timerStartTime ≤ i.tTick) :
    (caseCountdown s i).1.RemainingTime
      = s.PreviousRemainingTime - since i.tTick s.timerStartTime / 1000000000 := by
  rw [caseCountdown_remaining, tdiv_nonneg_eq _ (since_nonneg _ _ hclk)]
  have h1 := since_le i.tTick s.timerStartTime
  have h2 := since_nonneg _ _ hclk
  exact wrapDuration_eq _ (by omega) (by omega)

theorem caseCountdown_branches (s : State) (i : Input) :
    (0 ≤ (caseCountdown s i).1.RemainingTime →
      (caseCountdown s i).1.state = s.state ∧
      (caseCountdown s i).2 = [Effect.DispTime_oled (caseCountdown s i).1.RemainingTime]) ∧
    ((caseCountdown s i).1.RemainingTime < 0 →
      (caseCountdown s i).1.state = Waiting ∧
      (caseCountdown s i).2 = [Effect.go Melody.playThirori]) := by
  unfold caseCountdown
  simp only
  split_ifs with h
  · exact ⟨fun _ => ⟨rfl, rfl⟩, fun hn => absurd h (by simp only at hn; omega)⟩
  · exact ⟨fun hn => absurd (by simpa using hn) h, fun _ => ⟨rfl, rfl⟩⟩

/-- Claim C18. For a countdown started from `N` seconds, a tick at `e` whole elapsed
seconds (`e` the floor of the elapsed time over one second) keeps `state = Countdown`,
sets `RemainingTime = N - e ≥ 0` and redraws it whenever `e ≤ N`, in particular at
`e = N`, where `00:00` is drawn; a tick with `e > N`, that is with at least `N + 1` whole
seconds elapsed, sets `state = Waiting`, starts the end melody and leaves
`RemainingTime = N - e`, a negative value. -/
theorem expiry_one_second_late (s : State) (i : Input) (N : Int)
    (hc : s.state = Countdown) (hN : s.PreviousRemainingTime = N)
    (hN1 : 0 ≤ N) (hN2 : N ≤ 4611686018427387904)
    (hclk : s.timerStartTime ≤ i.tTick) :
    (switchState s i).1.RemainingTime = N - since i.tTick s.timerStartTime / 1000000000 ∧
    (since i.tTick s.timerStartTime / 1000000000 ≤ N →
      (switchState s i).1.state = Countdown ∧
      0 ≤ (switchState s i).1.RemainingTime ∧
      (switchState s i).2
        = [Effect.DispTime_oled (N - since i.tTick s.timerStartTime / 1000000000)]) ∧
    (since i.tTick s.timerStartTime / 1000000000 = N →
      (switchState s i).1.state = Countdown ∧
      (switchState s i).2 = [Effect.DispTime_oled 0]) ∧
    (N < since i.tTick s.timerStartTime / 1000000000 →
      (switchState s i).1.state = Waiting ∧
      (switchState s i).1.RemainingTime < 0 ∧
      (switchState s i).2 = [Effect.go Melody.playThirori]) ∧
    ((switchState s i).1.state = Waiting
      ↔ (N + 1) * 1000000000 ≤ since i.tTick s.timerStartTime) ∧
    DispTime 0 = "00:00" := by
  have hval := caseCountdown_exact s i (by omega) (by omega) hclk
  rw [hN] at hval
  obtain ⟨b1, b2⟩ := caseCountdown_branches s i
  rw [switchState_countdown s i hc]
  rw [hval] at b1 b2
  refine ⟨hval, ?_, ?_, ?_, ?_, by decide⟩
  · intro he
    obtain ⟨c1, c2⟩ := b1 (by omega)
    exact ⟨c1.trans hc, by rw [hval]; omega, c2⟩
  · intro he
    obtain ⟨c1, c2⟩ := b1 (by omega)
    refine ⟨c1.trans hc, ?_⟩
    rw [c2, he, Int.sub_self]
  · intro he
    obtain ⟨c1, c2⟩ := b2 (by omega)
    exact ⟨c1, by rw [hval]; omega, c2⟩
  · constructor
    · intro hw
      by_contra hlt
      obtain ⟨c1, _⟩ := b1 (by omega)
      rw [c1, hc] at hw
      exact absurd hw (by decide)
    · intro hge
      exact (b2 (by omega)).1

/-- Witness for C18: a countdown from 300 s ticked 300.9 s after its start still
shows `00:00`; ticked at 301 s it has expired with `RemainingTime = -1`. -/
theorem expiry_one_second_late_witness :
    (switchState countdownState (sample true 0 300900000000)).1.state = Countdown ∧
    (switchState countdownState (sample true 0 300900000000)).2 = [Effect.DispTime_oled 0] ∧
    (switchState countdownState (sample true 0 301000000000)).1.state = Waiting ∧
    (switchState countdownState (sample true 0 301000000000)).1.RemainingTime = -1 :=
  have h1 := expiry_one_second_late countdownState (sample true 0 300900000000) 300
    (by decide) (by decide) (by decide) (by decide) (by decide)
  have h2 := expiry_one_second_late countdownState (sample true 0 301000000000) 300
    (by decide) (by decide) (by decide) (by decide) (by decide)
  ⟨(h1.2.2.1 (by decide)).1, (h1.2.2.1 (by decide)).2, (h2.2.2.2.1 (by decide)).1,
    h2.1.trans (by decide)⟩

theorem switchState_previous (s : State) (i : Input) :
    (switchState s i).1.PreviousRemainingTime = s.PreviousRemainingTime := by
  unfold switchState caseWaiting caseCountdown
  simp only
  split_ifs <;> rfl

theorem button_previous (s : State) (i : Input)
    (h : (button s i).1.PreviousRemainingTime ≠ s.PreviousRemainingTime) :
    classifies s i = true ∧
    100000000 ≤ since i.tButton s.pressStartTime ∧
    since i.tButton s.pressStartTime < 500000000 ∧
    s.state = Waiting ∧ 0 < s.RemainingTime ∧
    (button s i).1.PreviousRemainingTime = s.RemainingTime := by
  unfold button release longPress shortPress noisePress at h ⊢
  simp only [classifies, longPressThresholdMs, shortPressThresholdMs, Millisecond] at h ⊢
  split_ifs at h ⊢ <;> simp_all

/-- Counterexample to C19 as stated. In the run `wrapInputs` the clock never goes
back, but the encoder is read at `-2^31`: the `Waiting` case leaves
`RemainingTime = 2147483948`, and the short press that follows commits it, so that
`PreviousRemainingTime = 2147483948`, above `MaxTime`. -/
theorem previous_time_bounds_counterexample :
    clockOK 0 wrapInputs = true ∧
    encoderOK wrapInputs = false ∧
    (run initState (wrapInputs.take 1)).1.state = Waiting ∧
    (run initState (wrapInputs.take 1)).1.RemainingTime = 2147483948 ∧
    (run initState wrapInputs).1.PreviousRemainingTime = 2147483948 ∧
    ¬ ((run initState wrapInputs).1.PreviousRemainingTime ≤ MaxTime) := by
  decide

/-- Claim C19, amended. In every state reached from the initial state by loop iterations whose
clock readings never go back and whose encoder positions have magnitude below `2^30`,
`1 ≤ PreviousRemainingTime ≤ MaxTime` and `RemainingTime ≤ MaxTime`, so a long press
handled in that state restores a duration between 1 and `MaxTime`. In every state
whatsoever, an iteration changes `PreviousRemainingTime` only by handling a short
press in mode `Waiting` with `RemainingTime > 0`, and the new value is that
`RemainingTime`. -/
theorem previous_time_bounds (t0 : Int) (inputs : List Input)
    (hclk : clockOK t0 inputs = true) (henc : encoderOK inputs = true) :
    1 ≤ (run initState inputs).1.PreviousRemainingTime ∧
    (run initState inputs).1.PreviousRemainingTime ≤ MaxTime ∧
    (run initState inputs).1.RemainingTime ≤ MaxTime ∧
    (∀ i : Input, (run initState inputs).1.isButtonPressed = true → i.buttonState = true →
      500000000 ≤ since i.tButton (run initState inputs).1.pressStartTime →
      1 ≤ (button (run initState inputs).1 i).1.RemainingTime ∧
      (button (run initState inputs).1 i).1.RemainingTime ≤ MaxTime) ∧
    (∀ (s : State) (i : Input),
      (mainLoopBody s i).1.PreviousRemainingTime ≠ s.PreviousRemainingTime →
      classifies s i = true ∧
      100000000 ≤ since i.tButton s.pressStartTime ∧
      since i.tButton s.pressStartTime < 500000000 ∧
      s.state = Waiting ∧ 0 < s.RemainingTime ∧
      (mainLoopBody s i).1.PreviousRemainingTime = s.RemainingTime) := by
  obtain ⟨⟨u, hu⟩, _⟩ :=
    run_reachInv inputs t0 initState (reachInv_initState t0) hclk henc
  obtain ⟨_, hp1, hp2, _, hr2, _, _, _⟩ := hu
  refine ⟨hp1, hp2, hr2, ?_, ?_⟩
  · intro i hp hb hl
    rw [button_long _ i hp hb hl]
    exact ⟨hp1, hp2⟩
  · intro s i h
    simp only [mainLoopBody] at h ⊢
    rw [switchState_previous] at h ⊢
    exact button_previous s i h

/-- Witness for C19: the first three iterations of `expiryInputs`, in which a short
press commits the 2 s that were set. -/
theorem previous_time_bounds_witness :
    clockOK 0 (expiryInputs.take 3) = true ∧ encoderOK (expiryInputs.take 3) = true ∧
    (run initState (expiryInputs.take 3)).1.PreviousRemainingTime = 2 ∧
    1 ≤ (run initState (expiryInputs.take 3)).1.PreviousRemainingTime ∧
    (run initState (expiryInputs.take 3)).1.PreviousRemainingTime ≤ MaxTime :=
  have h := previous_time_bounds 0 (expiryInputs.take 3) (by decide) (by decide)
  ⟨by decide, by decide, by decide, h.1, h.2.1⟩

theorem displayed_append (a b : List Effect) :
    displayed (a ++ b) = displayed a ++ displayed b := by
  induction a with
  | nil => rfl
  | cons e rest ih =>
    cases e <;> simp [displayed, ih]

theorem button_displayed (t : Int) (s : State) (i : Input) (hinv : reachInv t s) :
    ∀ r ∈ displayed (button s i).2, MinTime ≤ r ∧ r ≤ MaxTime := by
  obtain ⟨hs, hp1, hp2, hr1, hr2, hc, ho1, ho2⟩ := hinv
  unfold button release longPress shortPress noisePress
  simp only [MaxTime, MinTime] at *
  split_ifs <;> simp [displayed]
  omega

theorem caseWaiting_displayed (t : Int) (s : State) (i : Input) (hinv : reachInv t s)
    (hmin : MinTime ≤ s.RemainingTime)
    (hp1 : -1073741824 ≤ i.position) (hp2 : i.position < 1073741824) :
    ∀ r ∈ displayed (caseWaiting s i).2, MinTime ≤ r ∧ r ≤ MaxTime := by
  obtain ⟨hs, hq1, hq2, hr1, hr2, hc, ho1, ho2⟩ := hinv
  simp only [MaxTime, MinTime] at *
  obtain ⟨a1, a2, a3, a4, _⟩ := caseWaiting_remaining s i (by omega) (by omega)
    (by omega) (by omega)
  simp only [MaxTime, MinTime] at a1 a2
  intro r hr
  rcases Int.lt_trichotomy (i.position - s.oldValue) 0 with h | h | h
  · rw [a4 (by omega), a2 h] at hr
    simp [displayed] at hr
    omega
  · rw [(a3 h).2] at hr
    simp [displayed] at hr
  · rw [a4 (by omega), a1 h] at hr
    simp [displayed] at hr
    omega

theorem caseCountdown_displayed (t : Int) (s : State) (i : Input) (hinv : reachInv t s)
    (hcd : s.state = Countdown) (h1 : t ≤ i.tTick) :
    ∀ r ∈ displayed (caseCountdown s i).2, MinTime ≤ r ∧ r ≤ MaxTime := by
  obtain ⟨hinv2, _⟩ := caseCountdown_reachInv t s i hinv hcd h1
  obtain ⟨_, _, _, _, hr2, _, _, _⟩ := hinv2
  obtain ⟨b1, b2⟩ := caseCountdown_branches s i
  intro r hr
  rcases Int.lt_or_le (caseCountdown s i).1.RemainingTime 0 with h | h
  · rw [(b2 h).2] at hr
    simp [displayed] at hr
  · rw [(b1 h).2] at hr
    simp only [displayed, List.mem_singleton] at hr
    subst hr
    exact ⟨h, hr2⟩

theorem mainLoopBody_displayed (t : Int) (s : State) (i : Input) (hinv : reachInv t s)
    (hmin : MinTime ≤ s.RemainingTime)
    (h1 : t ≤ i.tButton) (h2 : i.tButton ≤ i.tStart) (h3 : i.tStart ≤ i.tTick)
    (hp1 : -1073741824 ≤ i.position) (hp2 : i.position < 1073741824) :
    ∀ r ∈ displayed (mainLoopBody s i).2, MinTime ≤ r ∧ r ≤ MaxTime := by
  obtain ⟨b1, b2, _⟩ := button_reachInv t s i hinv h1 h2
  intro r hr
  simp only [mainLoopBody, displayed_append, List.mem_append] at hr
  rcases hr with hr | hr
  · exact button_displayed t s i hinv r hr
  · rcases b1.1 with hw | hcd
    · rw [switchState_waiting _ _ hw] at hr
      exact caseWaiting_displayed i.tStart _ i b1 (b2 hmin) hp1 hp2 r hr
    · rw [switchState_countdown _ _ hcd] at hr
      exact caseCountdown_displayed i.tStart _ i b1 hcd h3 r hr

/-- Every value drawn before the first expiry of a run lies within the bounds: in a
run with a monotonic clock and small encoder positions in which no end melody is
started, `DispTime_oled` is only called with `MinTime ≤ RemainingTime ≤ MaxTime`. -/
theorem run_displayed_before_expiry (inputs : List Input) :
    ∀ (t : Int) (s : State), reachInv t s → MinTime ≤ s.RemainingTime →
      clockOK t inputs = true → encoderOK inputs = true →
      endMelodies (run s inputs).2 = 0 →
      ∀ r ∈ displayed (run s inputs).2, MinTime ≤ r ∧ r ≤ MaxTime := by
  induction inputs with
  | nil => intro t s _ _ _ _ _ r hr; simp [run, displayed] at hr
  | cons i rest ih =>
    intro t s hinv hmin hclk henc hem r hr
    simp only [clockOK, Bool.and_eq_true, decide_eq_true_eq] at hclk
    simp only [encoderOK, Bool.and_eq_true, decide_eq_true_eq] at henc
    obtain ⟨⟨⟨h1, h2⟩, h3⟩, h4⟩ := hclk
    obtain ⟨⟨hp1, hp2⟩, h5⟩ := henc
    obtain ⟨m1, m2⟩ := mainLoopBody_reachInv t s i hinv h1 h2 h3 hp1 hp2
    simp only [run, endMelodies_append] at hem
    simp only [run, displayed_append, List.mem_append] at hr
    rcases hr with hr | hr
    · exact mainLoopBody_displayed t s i hinv hmin h1 h2 h3 hp1 hp2 r hr
    · exact ih i.tTick (mainLoopBody s i).1 m1 (m2 hmin (by omega)) h4 h5 (by omega) r hr

/-! ## What a run at the loop's pace preserves -/

theorem paceInv_initState (t : Int) : paceInv t initState := by
  simp [paceInv, initState, Waiting, Countdown]

theorem button_paceInv (t : Int) (s : State) (i : Input) (hinv : reachInv t s)
    (hpace : paceInv t s) (h1 : t ≤ i.tButton) (h2 : i.tButton ≤ i.tStart) :
    paceInv t (button s i).1 := by
  obtain ⟨hs, hp1, hp2, hr1, hr2, hc, ho1, ho2⟩ := hinv
  obtain ⟨hm, hq⟩ := hpace
  unfold button release longPress shortPress noisePress
  simp only [paceInv, MaxTime, MinTime, Waiting, Countdown, longPressThresholdMs,
    shortPressThresholdMs, Millisecond] at *
  split_ifs <;> simp_all <;> omega

theorem caseWaiting_paced (s : State) (i : Input) (u : Int)
    (hw : s.state = Waiting) (hm : -1 ≤ s.RemainingTime) (hr2 : s.RemainingTime ≤ MaxTime)
    (hd1 : -2147483648 < i.position - s.oldValue)
    (hd2 : i.position - s.oldValue < 2147483648) :
    paceInv u (caseWaiting s i).1 ∧
    ∀ r ∈ displayed (caseWaiting s i).2, MinTime ≤ r ∧ r ≤ MaxTime := by
  simp only [MaxTime, MinTime] at *
  obtain ⟨a1, a2, a3, a4, _⟩ := caseWaiting_remaining s i hd1 hd2 (by omega) (by omega)
  simp only [MaxTime, MinTime] at a1 a2
  have hst : (caseWaiting s i).1.state ≠ Countdown := by
    rw [caseWaiting_state, hw]; decide
  rcases Int.lt_trichotomy (i.position - s.oldValue) 0 with h | h | h
  · refine ⟨⟨by rw [a2 h]; omega, fun hc => absurd hc hst⟩, fun r hr => ?_⟩
    rw [a4 (by omega), a2 h] at hr
    simp [displayed] at hr
    omega
  · refine ⟨⟨by rw [(a3 h).1]; exact hm, fun hc => absurd hc hst⟩, fun r hr => ?_⟩
    rw [(a3 h).2] at hr
    simp [displayed] at hr
  · refine ⟨⟨by rw [a1 h]; omega, fun hc => absurd hc hst⟩, fun r hr => ?_⟩
    rw [a4 (by omega), a1 h] at hr
    simp [displayed] at hr
    omega

theorem caseCountdown_paced (t u : Int) (s : State) (i : Input) (hinv : reachInv u s)
    (hpace : paceInv t s) (hcd : s.state = Countdown)
    (h1 : u ≤ i.tTick) (h2 : i.tTick < t + 1000000000) :
    paceInv i.tTick (caseCountdown s i).1 := by
  obtain ⟨hs, hq1, hq2, hr1, hr2, hc, ho1, ho2⟩ := hinv
  obtain ⟨hc1, hc2⟩ := hc hcd
  have hlt := hpace.2 hcd
  simp only [MaxTime] at hq2
  have hsince : since i.tTick s.timerStartTime = i.tTick - s.timerStartTime := by
    unfold since satDuration
    split_ifs <;> omega
  have hval := caseCountdown_exact s i (by omega) (by omega) (by omega)
  rw [hsince] at hval
  obtain ⟨b1, b2⟩ := caseCountdown_branches s i
  rcases Int.lt_or_le (caseCountdown s i).1.RemainingTime 0 with h | h
  · refine ⟨by rw [hval]; omega, fun hcd2 => ?_⟩
    rw [(b2 h).1] at hcd2
    exact absurd hcd2 (by decide)
  · refine ⟨by omega, fun _ => ?_⟩
    have e1 : (caseCountdown s i).1.timerStartTime = s.timerStartTime := by
      unfold caseCountdown; simp only; split_ifs <;> rfl
    have e2 : (caseCountdown s i).1.PreviousRemainingTime = s.PreviousRemainingTime := by
      unfold caseCountdown; simp only; split_ifs <;> rfl
    rw [e1, e2]
    rw [hval] at h
    omega

theorem mainLoopBody_paced (t : Int) (s : State) (i : Input) (hinv : reachInv t s)
    (hpace : paceInv t s)
    (h1 : t ≤ i.tButton) (h2 : i.tButton ≤ i.tStart) (h3 : i.tStart ≤ i.tTick)
    (hp1 : -1073741824 ≤ i.position) (hp2 : i.position < 1073741824)
    (hp : (button s i).1.state ≠ Countdown ∨ i.tTick < t + 1000000000) :
    paceInv i.tTick (mainLoopBody s i).1 ∧
    ∀ r ∈ displayed (mainLoopBody s i).2, MinTime ≤ r ∧ r ≤ MaxTime := by
  obtain ⟨b1, _, _⟩ := button_reachInv t s i hinv h1 h2
  have b2 := button_paceInv t s i hinv hpace h1 h2
  have hbd := button_displayed t s i hinv
  obtain ⟨hsb, _, _, _, hr2, _, ho1, ho2⟩ :=
    (show reachInv i.tStart (button s i).1 from b1)
  rcases hsb with hw | hcd
  · obtain ⟨c1, c2⟩ := caseWaiting_paced (button s i).1 i i.tTick hw b2.1 hr2
      (by omega) (by omega)
    simp only [mainLoopBody, displayed_append, List.mem_append]
    rw [switchState_waiting _ _ hw]
    exact ⟨c1, fun r hr => hr.elim (hbd r) (c2 r)⟩
  · have hlt : i.tTick < t + 1000000000 := hp.resolve_left (fun h => h hcd)
    have c1 := caseCountdown_paced t i.tStart (button s i).1 i b1 b2 hcd h3 hlt
    have c2 := caseCountdown_displayed i.tStart (button s i).1 i b1 hcd h3
    simp only [mainLoopBody, displayed_append, List.mem_append]
    rw [switchState_countdown _ _ hcd]
    exact ⟨c1, fun r hr => hr.elim (hbd r) (c2 r)⟩

theorem run_paced (inputs : List Input) :
    ∀ (t : Int) (s : State), reachInv t s → paceInv t s →
      clockOK t inputs = true → encoderOK inputs = true → paceOK t s inputs = true →
      -1 ≤ (run s inputs).1.RemainingTime ∧
      ∀ r ∈ displayed (run s inputs).2, MinTime ≤ r ∧ r ≤ MaxTime := by
  induction inputs with
  | nil => intro t s _ hp _ _ _; exact ⟨hp.1, fun r hr => by simp [run, displayed] at hr⟩
  | cons i rest ih =>
    intro t s hinv hpace hclk henc hpc
    simp only [clockOK, Bool.and_eq_true, decide_eq_true_eq] at hclk
    simp only [encoderOK, Bool.and_eq_true, decide_eq_true_eq] at henc
    simp only [paceOK, Bool.and_eq_true, Bool.or_eq_true, decide_eq_true_eq] at hpc
    obtain ⟨⟨⟨h1, h2⟩, h3⟩, h4⟩ := hclk
    obtain ⟨⟨hp1, hp2⟩, h5⟩ := henc
    obtain ⟨hp, h6⟩ := hpc
    obtain ⟨m1, _⟩ := mainLoopBody_reachInv t s i hinv h1 h2 h3 hp1 hp2
    obtain ⟨m2, m3⟩ := mainLoopBody_paced t s i hinv hpace h1 h2 h3 hp1 hp2 hp
    obtain ⟨r1, r2⟩ := ih i.tTick (mainLoopBody s i).1 m1 m2 h4 h5 h6
    refine ⟨r1, fun r hr => ?_⟩
    simp only [run, displayed_append, List.mem_append] at hr
    exact hr.elim (m3 r) (r2 r)

theorem fmt02d_two_digits :
    ∀ n : Nat, n < 100 →
      fmt02d (n : Int) = String.mk [Char.ofNat (48 + n / 10), Char.ofNat (48 + n % 10)] := by
  decide

theorem DispTime_in_range (r : Int) (h0 : MinTime ≤ r) (h1 : r ≤ MaxTime) :
    ∃ mm ss : Nat, mm ≤ 99 ∧ ss ≤ 59 ∧ (mm : Int) * 60 + (ss : Int) = r ∧
      r.tdiv 60 = (mm : Int) ∧ r.tmod 60 = (ss : Int) ∧
      DispTime r = String.mk [Char.ofNat (48 + mm / 10), Char.ofNat (48 + mm % 10), ':',
        Char.ofNat (48 + ss / 10), Char.ofNat (48 + ss % 10)] ∧
      (DispTime r).length = 5 := by
  simp only [MinTime, MaxTime] at h0 h1
  have e1 : r.tdiv 60 = ((r.toNat / 60 : Nat) : Int) := by
    rw [Int.tdiv_eq_ediv h0 (by decide)]; omega
  have e2 : r.tmod 60 = ((r.toNat % 60 : Nat) : Int) := by
    rw [Int.tmod_eq_emod h0 (by decide)]; omega
  have f1 := fmt02d_two_digits (r.toNat / 60) (by omega)
  have f2 := fmt02d_two_digits (r.toNat % 60) (by omega)
  have htext : DispTime r
      = String.mk [Char.ofNat (48 + r.toNat / 60 / 10), Char.ofNat (48 + r.toNat / 60 % 10),
          ':', Char.ofNat (48 + r.toNat % 60 / 10), Char.ofNat (48 + r.toNat % 60 % 10)] := by
    unfold DispTime
    rw [e1, e2, f1, f2]
    rfl
  refine ⟨r.toNat / 60, r.toNat % 60, by omega, by omega, by omega, e1, e2, htext, ?_⟩
  rw [htext]
  rfl

/-- A stalled loop. In the run `lateInputs` (2 s set, countdown started, the next
iteration 5 s after the start, then one encoder count up) the clock never goes back
and the encoder stays small, but the run is not at the loop's pace; the expiry leaves
`RemainingTime = -3`, and the encoder adjustment that follows redraws `-2`, for which
the text is `00:-2`. The bound on the pace is therefore needed. -/
theorem stalled_loop_draws_negative :
    clockOK 0 lateInputs = true ∧ encoderOK lateInputs = true ∧
    paceOK 0 initState lateInputs = false ∧
    (run initState (lateInputs.take 3)).1.state = Countdown ∧
    (run initState (lateInputs.take 4)).1.state = Waiting ∧
    (run initState (lateInputs.take 4)).1.RemainingTime = -3 ∧
    displayed (run initState lateInputs).2 = [2, 2, -2] ∧
    ¬ (MinTime ≤ (-2 : Int)) ∧
    (-2 : Int).tdiv 60 = 0 ∧ (-2 : Int).tmod 60 = -2 ∧
    DispTime (-2) = "00:-2" ∧
    DispTime 2 = "00:02" := by
  decide

/-- Counterexample to C20 as stated. The run `wrapInputs` starts from the initial
state with a clock that never goes back; its first iteration reads the encoder at
`-2^31`, and the `Waiting` case then calls `DispTime_oled` with
`RemainingTime = 2147483948`, above `MaxTime`; the text is `35791399:08`, eleven
characters. -/
theorem display_in_range_counterexample :
    clockOK 0 (wrapInputs.take 1) = true ∧
    paceOK 0 initState (wrapInputs.take 1) = true ∧
    encoderOK (wrapInputs.take 1) = false ∧
    displayed (run initState (wrapInputs.take 1)).2 = [2147483948] ∧
    ¬ ((2147483948 : Int) ≤ MaxTime) ∧
    DispTime 2147483948 = "35791399:08" ∧
    (DispTime 2147483948).length = 11 := by
  decide

/-- Claim C20, amended. In a run from the initial state whose clock readings never go
back, whose encoder positions have magnitude below `2^30`, and which keeps the loop's
pace (every `Countdown` tick reads the clock less than one second after the previous
iteration), every call of `DispTime_oled`, the one before the loop included, formats
a `RemainingTime` in `[0, 5940]`; the text is the five characters `MM:SS` with
`MM = RemainingTime / 60 ≤ 99`, `SS = RemainingTime % 60 ≤ 59` and
`MM * 60 + SS = RemainingTime`. This includes the first encoder adjustment after an
expiry, which starts from `RemainingTime = -1`; `RemainingTime` itself is never below
`-1` in such a run. -/
theorem display_in_range (t0 : Int) (inputs : List Input)
    (hclk : clockOK t0 inputs = true) (henc : encoderOK inputs = true)
    (hpace : paceOK t0 initState inputs = true) :
    -1 ≤ (run initState inputs).1.RemainingTime ∧
    ∀ r ∈ displayed (startupEffects ++ (run initState inputs).2),
      MinTime ≤ r ∧ r ≤ MaxTime ∧
      ∃ mm ss : Nat, mm ≤ 99 ∧ ss ≤ 59 ∧ (mm : Int) * 60 + (ss : Int) = r ∧
        r.tdiv 60 = (mm : Int) ∧ r.tmod 60 = (ss : Int) ∧
        DispTime r = String.mk [Char.ofNat (48 + mm / 10), Char.ofNat (48 + mm % 10), ':',
          Char.ofNat (48 + ss / 10), Char.ofNat (48 + ss % 10)] ∧
        (DispTime r).length = 5 := by
  obtain ⟨h1, h2⟩ := run_paced inputs t0 initState (reachInv_initState t0)
    (paceInv_initState t0) hclk henc hpace
  refine ⟨h1, fun r hr => ?_⟩
  have hrange : MinTime ≤ r ∧ r ≤ MaxTime := by
    rw [displayed_append, List.mem_append] at hr
    rcases hr with hr | hr
    · have : r = 300 := by simpa [startupEffects, displayed, initState] using hr
      rw [this]; decide
    · exact h2 r hr
  exact ⟨hrange.1, hrange.2, DispTime_in_range r hrange.1 hrange.2⟩

/-- Witness for C20: the run `pacedInputs`, which expires at the loop's pace with
`RemainingTime = -1`; the encoder count that follows redraws `0`, as `00:00`. -/
theorem display_in_range_witness :
    clockOK 0 pacedInputs = true ∧ encoderOK pacedInputs = true ∧
    paceOK 0 initState pacedInputs = true ∧
    (run initState (pacedInputs.take 9)).1.RemainingTime = -1 ∧
    displayed (startupEffects ++ (run initState pacedInputs).2) = [300, 2, 2, 2, 1, 0, 0, 0] ∧
    (∀ r ∈ displayed (startupEffects ++ (run initState pacedInputs).2),
      MinTime ≤ r ∧ r ≤ MaxTime) ∧
    DispTime 0 = "00:00" :=
  have h := display_in_range 0 pacedInputs (by decide) (by decide) (by decide)
  ⟨by decide, by decide, by decide, by decide, by decide,
    fun r hr => ⟨(h.2 r hr).1, (h.2 r hr).2.1⟩, by decide⟩

end Timer
